import Mathlib

/-!
# Verification of the garage-ui streaming object-transfer subsystem

Shallow embedding of `src/infrastructure/s3/client.rs` (multipart upload,
listing, download/head, recursive delete) and of the zero-length branch of
`src/infrastructure/grpc/services/object_service.rs::upload_object`.

Bytes are modelled as `Nat` (the claims only depend on lengths and on the
identity of bytes, never on 8-bit wraparound).  The remote S3 store is
modelled as a pure response table (`StoreModel`): each embedded operation
returns, besides its `Result`, the chronological list of S3 calls it issued
and the list of progress events it sent, so that traces can be inspected.
-/

namespace GarageUI

/-- `DomainError` from `src/domain/errors.rs` (the variants used by the
S3 client subsystem). -/
inductive DomainError where
  | ValidationError (msg : String)
  | ObjectNotFound (what : String)
  | GarageApiError (msg : String)
  | InternalError (msg : String)
deriving DecidableEq, Repr

/-- `UploadProgress` from `src/infrastructure/s3/client.rs`.
`part_number` is an `i32` in the source, always in `1..`, modelled as `Nat`;
the byte counters are `i64`, modelled as `Int`. -/
inductive UploadProgress where
  | Initiated (uploadId bucket key : String)
  | PartUploaded (partNumber : Nat) (bytesUploaded totalBytes : Int)
deriving DecidableEq, Repr

/-- `UploadResult` from `src/infrastructure/s3/client.rs`. -/
structure UploadResult where
  bucket : String
  key : String
  etag : String
  size : Int
deriving DecidableEq, Repr

/-- One remote S3 call, as issued by the embedded client.  Each constructor
records the request arguments the Rust code passes to the AWS SDK. -/
inductive S3Call where
  | createMultipartUpload (bucket key contentType : String)
  | uploadPart (bucket key uploadId : String) (partNumber : Nat) (body : List Nat)
  | completeMultipartUpload (bucket key uploadId : String) (parts : List (Nat × String))
  | abortMultipartUpload (bucket key uploadId : String)
  | putObject (bucket key contentType : String) (contentLength : Option Int) (body : List Nat)
deriving DecidableEq, Repr

/-- Response table for the remote store: what each S3 data-plane call
returns.  `.error` is a failed `send()`, the `Option String` payloads model
the SDK's optional `upload_id()` / `e_tag()` accessors. -/
structure StoreModel where
  createResult : Except String (Option String)
  uploadPartResult : Nat → Except String (Option String)
  completeResult : Except String (Option String)
  abortResult : Except String Unit
  putResult : Except String (Option String)

/-- Rust `str::trim_matches('"')`: strip all leading and trailing
double-quote characters. -/
def trimQuotes (s : String) : String :=
  String.mk (((s.data.dropWhile (· = '"')).reverse.dropWhile (· = '"')).reverse)

/-- The etag the store hands back for part `pn`
(`e_tag().unwrap_or_default()` on a successful `upload_part`). -/
def partETag (store : StoreModel) (pn : Nat) : String :=
  match store.uploadPartResult pn with
  | .ok o => o.getD ""
  | .error _ => ""

/-- `if let Some(ref sender) = progress_sender { let _ = sender.send(ev) }`:
the event is sent (appended to the sent-list) only when a sender exists;
the send's own result is discarded by the source. -/
def sendProgress (sender : Option Unit) (sent : List UploadProgress)
    (ev : UploadProgress) : List UploadProgress :=
  match sender with
  | some _ => sent ++ [ev]
  | none => sent

/-- Mutable local state of `upload_object_multipart`'s part loop:
`completed_parts`, `part_number`, `buffer`, `total_size`, plus the two
observation traces (issued S3 calls, sent progress events). -/
structure MpState where
  completedParts : List (Nat × String)
  partNumber : Nat
  buffer : List Nat
  totalSize : Int
  calls : List S3Call
  sent : List UploadProgress
deriving DecidableEq, Repr

/-- Outcome of a phase of the part loop: continue normally, abort-and-return
after a chunk-source error, or return a remote-call error (propagated by
`?` with no abort). -/
inductive PhaseOutcome where
  | ok (st : MpState)
  | chunkFail (st : MpState) (msg : String)
  | remoteFail (st : MpState) (msg : String)
deriving DecidableEq, Repr

/-- The inner `while buffer.len() >= part_size` loop of
`upload_object_multipart` (client.rs:218-269): drain `part_size`-byte
slices off the front of the buffer and upload each as one part.
The source diverges when `part_size = 0` (the loop guard stays true and
`drain(..0)` removes nothing), so the model is restricted to
`0 < partSize`; every caller in the repository uses the 5 MiB default. -/
def drainLoop (store : StoreModel) (bucket key uploadId : String)
    (partSize : Nat) (contentLength : Option Int) (sender : Option Unit)
    (st : MpState) : PhaseOutcome :=
  if h : 0 < partSize ∧ partSize ≤ st.buffer.length then
    let partData := st.buffer.take partSize
    let rest := st.buffer.drop partSize
    let calls := st.calls ++ [S3Call.uploadPart bucket key uploadId st.partNumber partData]
    match store.uploadPartResult st.partNumber with
    | .error e => .remoteFail { st with buffer := rest, calls := calls } e
    | .ok etagOpt =>
        let etag := etagOpt.getD ""
        drainLoop store bucket key uploadId partSize contentLength sender
          { completedParts := st.completedParts ++ [(st.partNumber, etag)]
            partNumber := st.partNumber + 1
            buffer := rest
            totalSize := st.totalSize
            calls := calls
            sent := sendProgress sender st.sent
              (.PartUploaded st.partNumber st.totalSize (contentLength.getD 0)) }
  else .ok st
termination_by st.buffer.length
decreasing_by
  simp only [List.length_drop]
  omega

/-- The outer `while let Some(chunk_result) = chunk_receiver.recv()` loop
(client.rs:197-270).  A closed channel is the end of the list; an `Err`
chunk issues a best-effort abort (result discarded) and fails the upload. -/
def chunkLoop (store : StoreModel) (bucket key uploadId : String)
    (partSize : Nat) (contentLength : Option Int) (sender : Option Unit)
    (chunks : List (Except String (List Nat))) (st : MpState) : PhaseOutcome :=
  match chunks with
  | [] => .ok st
  | chunkResult :: restChunks =>
    match chunkResult with
    | .error e =>
        .chunkFail
          { st with calls := st.calls ++ [S3Call.abortMultipartUpload bucket key uploadId] }
          ("Chunk error: " ++ e)
    | .ok chunk =>
        let st' := { st with buffer := st.buffer ++ chunk
                             totalSize := st.totalSize + chunk.length }
        match drainLoop store bucket key uploadId partSize contentLength sender st' with
        | .ok st'' =>
            chunkLoop store bucket key uploadId partSize contentLength sender restChunks st''
        | r => r

/-- The `if !buffer.is_empty()` final-part upload (client.rs:273-313). -/
def finalPart (store : StoreModel) (bucket key uploadId : String)
    (contentLength : Option Int) (sender : Option Unit) (st : MpState) : PhaseOutcome :=
  if st.buffer.isEmpty then .ok st
  else
    let calls := st.calls ++ [S3Call.uploadPart bucket key uploadId st.partNumber st.buffer]
    match store.uploadPartResult st.partNumber with
    | .error e => .remoteFail { st with calls := calls } e
    | .ok etagOpt =>
        let etag := etagOpt.getD ""
        .ok { st with
              completedParts := st.completedParts ++ [(st.partNumber, etag)]
              buffer := []
              calls := calls
              sent := sendProgress sender st.sent
                (.PartUploaded st.partNumber st.totalSize (contentLength.getD 0)) }

/-- `GarageS3Client::upload_object_multipart` (client.rs:124-352).
Returns the `Result`, the chronological list of S3 calls issued, and the
list of progress events sent to the (optional) progress channel. -/
def uploadObjectMultipart (store : StoreModel) (bucket key contentType : String)
    (contentLength : Option Int) (chunks : List (Except String (List Nat)))
    (partSizeArg : Option Nat) (sender : Option Unit) :
    Except DomainError UploadResult × List S3Call × List UploadProgress :=
  let partSize := partSizeArg.getD (5 * 1024 * 1024)
  let calls0 := [S3Call.createMultipartUpload bucket key contentType]
  match store.createResult with
  | .error e => (.error (.InternalError e), calls0, [])
  | .ok none => (.error (.InternalError "No upload ID returned"), calls0, [])
  | .ok (some uploadId) =>
    let sent0 := sendProgress sender [] (.Initiated uploadId bucket key)
    let st0 : MpState :=
      { completedParts := [], partNumber := 1, buffer := [], totalSize := 0
        calls := calls0, sent := sent0 }
    match chunkLoop store bucket key uploadId partSize contentLength sender chunks st0 with
    | .chunkFail st msg => (.error (.InternalError msg), st.calls, st.sent)
    | .remoteFail st msg => (.error (.InternalError msg), st.calls, st.sent)
    | .ok st =>
      match finalPart store bucket key uploadId contentLength sender st with
      | .chunkFail st' msg => (.error (.InternalError msg), st'.calls, st'.sent)
      | .remoteFail st' msg => (.error (.InternalError msg), st'.calls, st'.sent)
      | .ok st' =>
        let calls := st'.calls ++
          [S3Call.completeMultipartUpload bucket key uploadId st'.completedParts]
        match store.completeResult with
        | .error e => (.error (.InternalError e), calls, st'.sent)
        | .ok etagOpt =>
          (.ok { bucket := bucket, key := key
                 etag := trimQuotes (etagOpt.getD "")
                 size := st'.totalSize }, calls, st'.sent)

/-- `GarageS3Client::upload_object` (client.rs:58-110): one `PutObject`
call; `size` in the result is `content_length.unwrap_or(0)`.  The `PutObject`
response is `store.putResult`. -/
def uploadObject (store : StoreModel) (bucket key contentType : String)
    (contentLength : Option Int) (body : List Nat) :
    Except DomainError UploadResult × List S3Call :=
  let calls := [S3Call.putObject bucket key contentType contentLength body]
  match store.putResult with
  | .error e => (.error (.InternalError e), calls)
  | .ok etagOpt =>
      (.ok { bucket := bucket, key := key
             etag := trimQuotes (etagOpt.getD "")
             size := contentLength.getD 0 }, calls)

/-- `Display` of `DomainError` (thiserror attributes in
`src/domain/errors.rs`), restricted to the modelled variants. -/
def domainErrorMessage : DomainError → String
  | .ValidationError m => "Validation error: " ++ m
  | .ObjectNotFound w => "Object not found: " ++ w
  | .GarageApiError m => "Garage API error: " ++ m
  | .InternalError m => "Internal error: " ++ m

/-- The metadata message opening a gRPC streaming upload
(`UploadData::Metadata` in object_service.rs). -/
structure UploadMetadataMsg where
  bucket : String
  key : String
  contentType : String
  contentLength : Int
deriving DecidableEq, Repr

/-- `UploadResponseData` of the gRPC `UploadChunkResponse`. -/
inductive UploadResponseData where
  | Initiated (uploadId bucket key : String)
  | Progress (partNumber : Nat) (bytesUploaded totalBytes : Int)
  | Result (r : UploadResult)
deriving DecidableEq, Repr

/-- The progress-forwarding task of `ObjectService::upload_object`
(object_service.rs:269-304): each domain progress event becomes one gRPC
response message. -/
def progressToResponse : UploadProgress → UploadResponseData
  | .Initiated uploadId bucket key => .Initiated uploadId bucket key
  | .PartUploaded pn bu tb => .Progress pn bu tb

/-- `ObjectService::upload_object` (object_service.rs:162-350) after the
metadata message has been read.  Returns the S3 calls issued and the
handler outcome: `.error` when the handler itself fails before producing a
stream, otherwise the sequence of stream items (each `Except` models
`Result<UploadChunkResponse, Status>`).  In the non-zero branch the stream
items are given in the canonical order: forwarded progress events first,
then the final result message produced by the upload task. -/
def grpcUploadObject (store : StoreModel) (meta : UploadMetadataMsg)
    (chunks : List (Except String (List Nat))) :
    List S3Call × Except String (List (Except String UploadResponseData)) :=
  if meta.contentLength = 0 then
    let up := uploadObject store meta.bucket meta.key meta.contentType (some 0) []
    match up.1 with
    | .error e => (up.2, .error (domainErrorMessage e))
    | .ok _ =>
        (up.2, .ok [.ok (.Initiated "folder_upload" meta.bucket meta.key)])
  else
    let r := uploadObjectMultipart store meta.bucket meta.key meta.contentType
      (some meta.contentLength) chunks none (some ())
    let finalMsg : Except String UploadResponseData :=
      match r.1 with
      | .ok ur => .ok (.Result ur)
      | .error e => .error ("Upload failed: " ++ domainErrorMessage e)
    (r.2.1, .ok ((r.2.2.map (fun ev => .ok (progressToResponse ev))) ++ [finalMsg]))

/-- One object entry of a raw `ListObjectsV2` store response (every SDK
accessor is optional). -/
structure RawS3Object where
  key : Option String
  size : Option Int
  lastModified : Option String
  etag : Option String
  storageClass : Option String
deriving DecidableEq, Repr

/-- A raw `ListObjectsV2` store response. -/
structure RawListResponse where
  contents : List RawS3Object
  nextContinuationToken : Option String
  isTruncated : Option Bool
  pfx : Option String
deriving DecidableEq, Repr

/-- `ObjectInfo` from client.rs. -/
structure ObjectInfo where
  key : String
  size : Int
  lastModified : String
  etag : String
  storageClass : String
deriving DecidableEq, Repr

/-- `ListObjectsOutput` from client.rs (`prefix` field renamed `pfx`). -/
structure ListObjectsOutput where
  objects : List ObjectInfo
  nextContinuationToken : Option String
  isTruncated : Bool
  pfx : Option String
deriving DecidableEq, Repr

/-- `GarageS3Client::list_objects` (client.rs:459-521) applied to the raw
store response: every response field is copied out with the source's
`unwrap_or` defaults; no cross-field check is performed. -/
def listObjects (resp : Except String RawListResponse) :
    Except DomainError ListObjectsOutput :=
  match resp with
  | .error e => .error (.InternalError e)
  | .ok r =>
      .ok { objects := r.contents.map (fun o =>
              { key := o.key.getD ""
                size := o.size.getD 0
                lastModified := o.lastModified.getD ""
                etag := trimQuotes (o.etag.getD "")
                storageClass := o.storageClass.getD "" })
            nextContinuationToken := r.nextContinuationToken
            isTruncated := r.isTruncated.getD false
            pfx := r.pfx }

/-- A raw `GetObject` store response. -/
structure RawGetResponse where
  contentType : Option String
  contentLength : Option Int
  etag : Option String
  lastModified : Option String
  body : List (List Nat)
deriving DecidableEq, Repr

/-- `DownloadMetadata` from client.rs. -/
structure DownloadMetadata where
  bucket : String
  key : String
  contentType : String
  contentLength : Int
  etag : String
  lastModified : String
deriving DecidableEq, Repr

/-- `DownloadResult` from client.rs (the body stream modelled as the list
of chunks the transport will deliver). -/
structure DownloadResult where
  metadata : DownloadMetadata
  body : List (List Nat)
deriving DecidableEq, Repr

/-- `GarageS3Client::download_object` (client.rs:404-454): any failure of
the `GetObject` call is mapped to `ObjectNotFound("{bucket}/{key}")`. -/
def downloadObject (bucket key : String) (resp : Except String RawGetResponse) :
    Except DomainError DownloadResult :=
  match resp with
  | .error _ => .error (.ObjectNotFound (bucket ++ "/" ++ key))
  | .ok r =>
      .ok { metadata :=
              { bucket := bucket, key := key
                contentType := r.contentType.getD "application/octet-stream"
                contentLength := r.contentLength.getD 0
                etag := trimQuotes (r.etag.getD "")
                lastModified := r.lastModified.getD "" }
            body := r.body }

/-- A raw `HeadObject` store response. -/
structure RawHeadResponse where
  contentLength : Option Int
  contentType : Option String
  etag : Option String
  lastModified : Option String
deriving DecidableEq, Repr

/-- `ObjectMetadata` from client.rs. -/
structure ObjectMetadata where
  contentLength : Int
  contentType : String
  etag : String
  lastModified : String
deriving DecidableEq, Repr

/-- `GarageS3Client::head_object` (client.rs:524-550): any failure of the
`HeadObject` call is mapped to `ObjectNotFound("{bucket}/{key}")`. -/
def headObject (bucket key : String) (resp : Except String RawHeadResponse) :
    Except DomainError ObjectMetadata :=
  match resp with
  | .error _ => .error (.ObjectNotFound (bucket ++ "/" ++ key))
  | .ok r =>
      .ok { contentLength := r.contentLength.getD 0
            contentType := r.contentType.getD ""
            etag := trimQuotes (r.etag.getD "")
            lastModified := r.lastModified.getD "" }

-- ===== Recursive delete (client.rs:553-706) =====

/-- Calls issued by the listing/deletion path. -/
inductive ListDelCall where
  | listObjectsV2 (bucket : String) (pfx : Option String)
      (token : Option String) (maxKeys : Option Int)
  | deleteObjectsCall (bucket : String) (keys : List String)
deriving DecidableEq, Repr

/-- One `deleted` entry of a raw `DeleteObjects` store response. -/
structure RawDeletedObject where
  key : Option String
deriving DecidableEq, Repr

/-- One `errors` entry of a raw `DeleteObjects` store response. -/
structure RawDeleteError where
  key : Option String
  code : Option String
  message : Option String
deriving DecidableEq, Repr

/-- A raw `DeleteObjects` store response. -/
structure RawDeleteResponse where
  deleted : List RawDeletedObject
  errors : List RawDeleteError
deriving DecidableEq, Repr

/-- `DeleteError` from client.rs. -/
structure DeleteError where
  key : String
  code : String
  message : String
deriving DecidableEq, Repr

/-- `DeleteObjectsOutput` from client.rs. -/
structure DeleteObjectsOutput where
  deleted : List String
  errors : List DeleteError
deriving DecidableEq, Repr

/-- Store model for the listing/deletion path: the `ListObjectsV2` response
served for a given continuation token, and the `DeleteObjects` response for
a given key batch. -/
structure ListStoreModel where
  listResult : Option String → Except String RawListResponse
  deleteResult : List String → Except String RawDeleteResponse

/-- `GarageS3Client::list_objects` issued against a `ListStoreModel`:
records the call and maps the raw response exactly as `listObjects`. -/
def listObjectsWith (store : ListStoreModel) (bucket : String)
    (pfx : Option String) (token : Option String) (maxKeys : Option Int) :
    List ListDelCall × Except DomainError ListObjectsOutput :=
  ([ListDelCall.listObjectsV2 bucket pfx token maxKeys],
   listObjects (store.listResult token))

/-- `GarageS3Client::delete_objects` (client.rs:573-635): an empty key
batch returns an empty outcome without issuing any remote call. -/
def deleteObjectsOp (store : ListStoreModel) (bucket : String)
    (keys : List String) :
    List ListDelCall × Except DomainError DeleteObjectsOutput :=
  if keys.isEmpty then ([], .ok { deleted := [], errors := [] })
  else
    ([ListDelCall.deleteObjectsCall bucket keys],
     match store.deleteResult keys with
     | .error e => .error (.InternalError e)
     | .ok r =>
         .ok { deleted := r.deleted.filterMap (·.key)
               errors := r.errors.map (fun e =>
                 { key := e.key.getD ""
                   code := e.code.getD ""
                   message := e.message.getD "" }) })

/-- `const MAX_KEYS_PER_REQUEST: i32 = 1000` (client.rs:658). -/
def MAX_KEYS_PER_REQUEST : Int := 1000

/-- The `loop` of `GarageS3Client::delete_objects_recursive`
(client.rs:660-691).  `fuel` bounds the number of iterations so the model
is total against arbitrary stores (the source loops unboundedly); `none`
means the fuel ran out before the source loop would have stopped, and the
termination theorems exhibit a sufficient concrete fuel. -/
def deleteRecLoop (store : ListStoreModel) (bucket pfxS : String) (fuel : Nat)
    (token : Option String) (accDel : List String) (accErr : List DeleteError)
    (calls : List ListDelCall) :
    Option (List ListDelCall × Except DomainError DeleteObjectsOutput) :=
  match fuel with
  | 0 => none
  | fuel + 1 =>
    let lst := listObjectsWith store bucket (some pfxS) token (some MAX_KEYS_PER_REQUEST)
    let calls := calls ++ lst.1
    match lst.2 with
    | .error e => some (calls, .error e)
    | .ok page =>
      if page.objects.isEmpty then
        some (calls, .ok { deleted := accDel, errors := accErr })
      else
        let keys := page.objects.map (·.key)
        let del := deleteObjectsOp store bucket keys
        let calls := calls ++ del.1
        match del.2 with
        | .error e => some (calls, .error e)
        | .ok delRes =>
          let accDel := accDel ++ delRes.deleted
          let accErr := accErr ++ delRes.errors
          if !page.isTruncated then
            some (calls, .ok { deleted := accDel, errors := accErr })
          else
            deleteRecLoop store bucket pfxS fuel page.nextContinuationToken
              accDel accErr calls

/-- `GarageS3Client::delete_objects_recursive` (client.rs:639-706). -/
def deleteObjectsRecursive (store : ListStoreModel) (bucket pfxS : String)
    (fuel : Nat) :
    Option (List ListDelCall × Except DomainError DeleteObjectsOutput) :=
  deleteRecLoop store bucket pfxS fuel none [] [] []

-- ===== Specification-side part splitting =====

/-- Canonical splitting of a byte string into consecutive `P`-sized slices,
the last slice holding the (nonempty) remainder.  This is the
specification the Part Assembler of `upload_object_multipart` is compared
against. -/
def splitIntoParts {α : Type} (P : Nat) (l : List α) : List (List α) :=
  if h : l.isEmpty ∨ P = 0 then [] else l.take P :: splitIntoParts P (l.drop P)
termination_by l.length
decreasing_by
  push_neg at h
  have h1 : 0 < l.length := by
    cases l with
    | nil => simp at h
    | cons a l => simp
  have h2 : 0 < P := Nat.pos_of_ne_zero h.2
  simp only [List.length_drop]
  omega

/-- Pure image of one run of the inner drain loop: the `P`-sized parts cut
off the front of `buffer`, and the remainder kept buffered. -/
def drainFull (P : Nat) (buffer : List Nat) : List (List Nat) × List Nat :=
  if h : 0 < P ∧ P ≤ buffer.length then
    let d := drainFull P (buffer.drop P)
    (buffer.take P :: d.1, d.2)
  else ([], buffer)
termination_by buffer.length
decreasing_by
  simp only [List.length_drop]
  omega

/-- Pure image of the outer chunk loop: parts emitted and final buffered
remainder after feeding `datas` into a buffer that starts as `buffer`. -/
def assembleFrom (P : Nat) (buffer : List Nat) :
    List (List Nat) → List (List Nat) × List Nat
  | [] => ([], buffer)
  | c :: cs =>
    let d := drainFull P (buffer ++ c)
    let r := assembleFrom P d.2 cs
    (d.1 ++ r.1, r.2)

/-- Progress events sent by the chunk loop: after each received chunk, one
`PartUploaded` per drained part, all carrying the running received-byte
total (`total_size` in the source is advanced per chunk, before draining). -/
def chunkEvents (P : Nat) (clv : Int) (startPn : Nat) (total : Int)
    (buffer : List Nat) : List (List Nat) → List UploadProgress
  | [] => []
  | c :: cs =>
    let buf := buffer ++ c
    let tot := total + c.length
    let d := drainFull P buf
    (List.range' startPn d.1.length).map (fun pn => .PartUploaded pn tot clv)
      ++ chunkEvents P clv (startPn + d.1.length) tot d.2 cs

/-- Send a list of events through the optional progress channel. -/
def sendAll (sender : Option Unit) (sent evs : List UploadProgress) :
    List UploadProgress :=
  match sender with
  | some _ => sent ++ evs
  | none => sent

-- ===== Trace observation helpers =====

/-- Bodies of the `UploadPart` calls of a trace, in order. -/
def partBodies (calls : List S3Call) : List (List Nat) :=
  calls.filterMap fun c =>
    match c with
    | .uploadPart _ _ _ _ body => some body
    | _ => none

/-- Part numbers of the `UploadPart` calls of a trace, in order. -/
def uploadPartNumbers (calls : List S3Call) : List Nat :=
  calls.filterMap fun c =>
    match c with
    | .uploadPart _ _ _ pn _ => some pn
    | _ => none

/-- The `(part_number, etag)` argument lists of the
`CompleteMultipartUpload` calls of a trace. -/
def completeCallArgs (calls : List S3Call) : List (List (Nat × String)) :=
  calls.filterMap fun c =>
    match c with
    | .completeMultipartUpload _ _ _ parts => some parts
    | _ => none

/-- The upload ids of the `AbortMultipartUpload` calls of a trace. -/
def abortCallIds (calls : List S3Call) : List String :=
  calls.filterMap fun c =>
    match c with
    | .abortMultipartUpload _ _ uploadId => some uploadId
    | _ => none

/-- Is this call part of the multipart API
(Create/UploadPart/Complete/Abort)? -/
def isMultipartCall : S3Call → Bool
  | .createMultipartUpload _ _ _ => true
  | .uploadPart _ _ _ _ _ => true
  | .completeMultipartUpload _ _ _ _ => true
  | .abortMultipartUpload _ _ _ => true
  | .putObject _ _ _ _ _ => false

/-- Bodies of the `PutObject` calls of a trace. -/
def putBodies (calls : List S3Call) : List (List Nat) :=
  calls.filterMap fun c =>
    match c with
    | .putObject _ _ _ _ body => some body
    | _ => none

/-- Number of `ListObjectsV2` calls in a listing/deletion trace. -/
def listCallCount (calls : List ListDelCall) : Nat :=
  (calls.filter fun c =>
    match c with
    | .listObjectsV2 _ _ _ _ => true
    | _ => false).length

/-- Key batches of the `DeleteObjects` calls of a listing/deletion trace. -/
def deleteCallKeys (calls : List ListDelCall) : List (List String) :=
  calls.filterMap fun c =>
    match c with
    | .deleteObjectsCall _ keys => some keys
    | _ => none

-- ===== Canonical well-behaved stores =====

/-- An everything-succeeds multipart store with distinguishable etags. -/
def okStore : StoreModel :=
  { createResult := .ok (some "uid-1")
    uploadPartResult := fun pn => .ok (some ("etag-" ++ toString pn))
    completeResult := .ok (some "final-etag")
    abortResult := .ok ()
    putResult := .ok (some "put-etag") }

/-- Continuation token handed out by the canonical listing store after
page `n` (its length encodes the next page index). -/
def pageToken (n : Nat) : String := String.mk (List.replicate n 'x')

/-- Page `n` served by a well-behaved store holding `keys` under the
queried prefix: 1000 keys per page, truncation flag and next token
consistent with whether keys remain. -/
def canonicalPage (keys : List String) (n : Nat) : RawListResponse :=
  { contents := ((keys.drop (1000 * n)).take 1000).map (fun k =>
      { key := some k, size := some 0, lastModified := none
        etag := none, storageClass := none })
    nextContinuationToken :=
      if 1000 * (n + 1) < keys.length then some (pageToken (n + 1)) else none
    isTruncated := some (decide (1000 * (n + 1) < keys.length))
    pfx := none }

/-- A well-behaved listing/deletion store holding exactly `keys` under the
queried prefix: listing pages through them 1000 at a time, deletion
deleting every requested key with no errors. -/
def canonicalListStore (keys : List String) : ListStoreModel :=
  { listResult := fun t =>
      .ok (canonicalPage keys (match t with | none => 0 | some s => s.length))
    deleteResult := fun ks =>
      .ok { deleted := ks.map (fun k => { key := some k }), errors := [] } }

-- ===== Basic lemmas =====

lemma sendAll_nil (sender : Option Unit) (s : List UploadProgress) :
    sendAll sender s [] = s := by
  cases sender <;> simp [sendAll]

lemma sendProgress_sendAll (sender : Option Unit) (s : List UploadProgress)
    (ev : UploadProgress) (evs : List UploadProgress) :
    sendAll sender (sendProgress sender s ev) evs = sendAll sender s (ev :: evs) := by
  cases sender <;> simp [sendAll, sendProgress]

lemma sendAll_append (sender : Option Unit) (s evs1 evs2 : List UploadProgress) :
    sendAll sender (sendAll sender s evs1) evs2 = sendAll sender s (evs1 ++ evs2) := by
  cases sender <;> simp [sendAll]

lemma sendProgress_eq_sendAll (sender : Option Unit) (s : List UploadProgress)
    (ev : UploadProgress) :
    sendProgress sender s ev = sendAll sender s [ev] := by
  cases sender <;> rfl

lemma drainFull_stop {P : Nat} {buffer : List Nat}
    (h : ¬(0 < P ∧ P ≤ buffer.length)) : drainFull P buffer = ([], buffer) := by
  rw [drainFull, dif_neg h]

lemma drainFull_step {P : Nat} {buffer : List Nat}
    (h : 0 < P ∧ P ≤ buffer.length) :
    drainFull P buffer =
      (buffer.take P :: (drainFull P (buffer.drop P)).1,
       (drainFull P (buffer.drop P)).2) := by
  rw [drainFull, dif_pos h]

lemma drainFull_rem_length {P : Nat} (hP : 0 < P) (buffer : List Nat) :
    (drainFull P buffer).2.length < P := by
  induction buffer using drainFull.induct P with
  | case1 b h ih => rw [drainFull_step h]; exact ih
  | case2 b h =>
      rw [drainFull_stop h]
      push_neg at h
      exact h hP

lemma drainFull_flatten {P : Nat} (buffer : List Nat) :
    (drainFull P buffer).1.flatten ++ (drainFull P buffer).2 = buffer := by
  induction buffer using drainFull.induct P with
  | case1 b h ih =>
      rw [drainFull_step h]
      simpa [List.append_assoc, ih] using List.take_append_drop P b
  | case2 b h => rw [drainFull_stop h]; simp

lemma drainFull_parts_length {P : Nat} (buffer : List Nat) :
    ∀ part ∈ (drainFull P buffer).1, part.length = P := by
  induction buffer using drainFull.induct P with
  | case1 b h ih =>
      rw [drainFull_step h]
      intro part hp
      rcases List.mem_cons.mp hp with hp | hp
      · subst hp; simp [List.length_take]; omega
      · exact ih part hp
  | case2 b h => rw [drainFull_stop h]; simp

lemma splitIntoParts_base {α : Type} {P : Nat} {l : List α} (h : l = [] ∨ P = 0) :
    splitIntoParts P l = [] := by
  rw [splitIntoParts, dif_pos (by simpa using h)]

lemma splitIntoParts_cons {α : Type} {P : Nat} {l : List α} (h : ¬(l = [] ∨ P = 0)) :
    splitIntoParts P l = l.take P :: splitIntoParts P (l.drop P) := by
  rw [splitIntoParts, dif_neg (by simpa using h)]

lemma splitIntoParts_drainFull {P : Nat} (hP : 0 < P) (buffer z : List Nat) :
    splitIntoParts P (buffer ++ z) =
      (drainFull P buffer).1 ++ splitIntoParts P ((drainFull P buffer).2 ++ z) := by
  induction buffer using drainFull.induct P with
  | case1 b h ih =>
      rw [drainFull_step h]
      have hb : ¬(b ++ z = [] ∨ P = 0) := by
        push_neg
        constructor
        · intro hc
          have : b = [] := by cases List.append_eq_nil.mp hc; assumption
          subst this; simp at h; omega
        · omega
      rw [splitIntoParts_cons hb, List.take_append_of_le_length h.2,
          List.drop_append_of_le_length h.2, ih]
      simp
  | case2 b h =>
      rw [drainFull_stop h]
      simp

lemma splitIntoParts_flatten {α : Type} {P : Nat} (hP : 0 < P) (l : List α) :
    (splitIntoParts P l).flatten = l := by
  induction l using splitIntoParts.induct P with
  | case1 l h =>
      rcases h with h | h
      · have hnil : l = [] := by simpa using h
        subst hnil
        rw [splitIntoParts_base (Or.inl rfl)]
        rfl
      · omega
  | case2 l h ih =>
      rw [splitIntoParts_cons (by simpa using h)]
      simp [ih, List.take_append_drop]

lemma splitIntoParts_length {α : Type} {P : Nat} (hP : 0 < P) (l : List α) :
    (splitIntoParts P l).length = (l.length + P - 1) / P := by
  induction l using splitIntoParts.induct P with
  | case1 l h =>
      rcases h with h | h
      · have hnil : l = [] := by simpa using h
        subst hnil
        rw [splitIntoParts_base (Or.inl rfl)]
        simp [Nat.div_eq_of_lt (by omega : P - 1 < P)]
      · omega
  | case2 l h ih =>
      rw [splitIntoParts_cons (by simpa using h)]
      push_neg at h
      have hl : 0 < l.length := List.length_pos.mpr (by simpa using h.1)
      simp only [List.length_cons, ih, List.length_drop]
      rcases le_or_lt P l.length with hle | hlt
      · have h1 : l.length - P + P - 1 = l.length - 1 := by omega
        have h2 : l.length + P - 1 = (l.length - 1) + P := by omega
        rw [h1, h2, Nat.add_div_right _ hP]
      · have h1 : l.length - P = 0 := by omega
        rw [h1]
        have h2 : (0 + P - 1) / P = 0 := Nat.div_eq_of_lt (by omega)
        have h3 : (l.length + P - 1) / P = 1 := by
          apply Nat.div_eq_of_lt_le <;> omega
        omega

/-- Structure of a nonempty splitting: all parts before the last have
length exactly `P`; the last has length `len % P`, or `P` when `P` divides
the length. -/
lemma splitIntoParts_last_spec {α : Type} {P : Nat} (hP : 0 < P) (l : List α)
    (hl : l ≠ []) :
    ∃ parts lastPart, splitIntoParts P l = parts ++ [lastPart] ∧
      (∀ p ∈ parts, p.length = P) ∧
      lastPart.length = (if l.length % P = 0 then P else l.length % P) := by
  induction l using splitIntoParts.induct P with
  | case1 l h =>
      rcases h with h | h
      · exact absurd (by simpa using h) hl
      · omega
  | case2 l h ih =>
      push_neg at h
      have h1 : l ≠ [] := by simpa using h.1
      have hl0 : 0 < l.length := List.length_pos.mpr h1
      rw [splitIntoParts_cons (by push_neg; exact ⟨h1, h.2⟩)]
      by_cases hd : l.drop P = []
      · have hlen : l.length ≤ P := by
          have := List.length_drop P l
          rw [hd] at this
          simp at this
          omega
        refine ⟨[], l.take P, ?_, by simp, ?_⟩
        · rw [hd, splitIntoParts_base (Or.inl rfl)]
          rfl
        · rw [List.length_take]
          rcases Nat.lt_or_ge l.length P with hlt | hge
          · rw [if_neg (by rw [Nat.mod_eq_of_lt hlt]; omega), Nat.mod_eq_of_lt hlt]
            omega
          · have : l.length = P := by omega
            rw [this]
            simp
      · have hge : P < l.length := by
          by_contra hc
          push_neg at hc
          exact hd (List.drop_eq_nil_of_le hc)
        obtain ⟨parts, lastPart, heq, hparts, hlast⟩ := ih hd
        refine ⟨l.take P :: parts, lastPart, by rw [heq]; rfl, ?_, ?_⟩
        · intro p hp
          rcases List.mem_cons.mp hp with hp | hp
          · subst hp; rw [List.length_take]; omega
          · exact hparts p hp
        · rw [hlast, List.length_drop]
          have hmod : (l.length - P) % P = l.length % P := by
            conv_rhs => rw [show l.length = (l.length - P) + P by omega]
            rw [Nat.add_mod_right]
          rw [hmod]

lemma assembleFrom_spec {P : Nat} (hP : 0 < P) (datas : List (List Nat)) :
    ∀ buffer : List Nat, buffer.length < P →
      ((assembleFrom P buffer datas).1 ++
          (if (assembleFrom P buffer datas).2.isEmpty then []
           else [(assembleFrom P buffer datas).2])
        = splitIntoParts P (buffer ++ datas.flatten))
      ∧ (assembleFrom P buffer datas).2.length < P := by
  induction datas with
  | nil =>
      intro buffer hb
      refine ⟨?_, by simpa [assembleFrom] using hb⟩
      simp only [assembleFrom, List.flatten_nil, List.append_nil, List.nil_append]
      by_cases hbe : buffer = []
      · subst hbe
        rw [splitIntoParts_base (Or.inl rfl)]
        simp
      · rw [splitIntoParts_cons (by push_neg; exact ⟨hbe, by omega⟩)]
        rw [List.take_of_length_le (le_of_lt hb), List.drop_eq_nil_of_le (le_of_lt hb),
            splitIntoParts_base (Or.inl rfl)]
        simp [hbe]
  | cons c cs ih =>
      intro buffer hb
      have hrem := drainFull_rem_length hP (buffer ++ c)
      obtain ⟨ih1, ih2⟩ := ih (drainFull P (buffer ++ c)).2 hrem
      refine ⟨?_, ih2⟩
      simp only [assembleFrom, List.flatten_cons]
      rw [← List.append_assoc, splitIntoParts_drainFull hP (buffer ++ c), ← ih1]
      simp [List.append_assoc]

-- ===== Drain-loop characterization =====

lemma drainLoop_stop {store : StoreModel} {bucket key uploadId : String}
    {partSize : Nat} {contentLength : Option Int} {sender : Option Unit}
    {st : MpState} (h : ¬(0 < partSize ∧ partSize ≤ st.buffer.length)) :
    drainLoop store bucket key uploadId partSize contentLength sender st = .ok st := by
  rw [drainLoop, dif_neg h]

lemma drainLoop_step_err {store : StoreModel} {bucket key uploadId : String}
    {partSize : Nat} {contentLength : Option Int} {sender : Option Unit}
    {st : MpState} {e : String}
    (h : 0 < partSize ∧ partSize ≤ st.buffer.length)
    (he : store.uploadPartResult st.partNumber = .error e) :
    drainLoop store bucket key uploadId partSize contentLength sender st =
      .remoteFail
        { st with buffer := st.buffer.drop partSize
                  calls := st.calls ++ [S3Call.uploadPart bucket key uploadId
                    st.partNumber (st.buffer.take partSize)] } e := by
  rw [drainLoop, dif_pos h]
  simp only [he]

lemma drainLoop_step_ok {store : StoreModel} {bucket key uploadId : String}
    {partSize : Nat} {contentLength : Option Int} {sender : Option Unit}
    {st : MpState} {o : Option String}
    (h : 0 < partSize ∧ partSize ≤ st.buffer.length)
    (ho : store.uploadPartResult st.partNumber = .ok o) :
    drainLoop store bucket key uploadId partSize contentLength sender st =
      drainLoop store bucket key uploadId partSize contentLength sender
        { completedParts := st.completedParts ++ [(st.partNumber, o.getD "")]
          partNumber := st.partNumber + 1
          buffer := st.buffer.drop partSize
          totalSize := st.totalSize
          calls := st.calls ++ [S3Call.uploadPart bucket key uploadId
            st.partNumber (st.buffer.take partSize)]
          sent := sendProgress sender st.sent
            (.PartUploaded st.partNumber st.totalSize (contentLength.getD 0)) } := by
  conv_lhs => rw [drainLoop]
  rw [dif_pos h]
  simp only [ho]

/-- A store whose `UploadPart` always succeeds. -/
def PartsOk (store : StoreModel) : Prop :=
  ∀ pn, ∃ o, store.uploadPartResult pn = .ok o

lemma drainLoop_ok (store : StoreModel) (bucket key uploadId : String)
    (partSize : Nat) (contentLength : Option Int) (sender : Option Unit)
    (hpart : PartsOk store) (hP : 0 < partSize) (st : MpState) :
    drainLoop store bucket key uploadId partSize contentLength sender st =
      .ok { completedParts := st.completedParts ++
              (List.range' st.partNumber (drainFull partSize st.buffer).1.length).map
                (fun pn => (pn, partETag store pn))
            partNumber := st.partNumber + (drainFull partSize st.buffer).1.length
            buffer := (drainFull partSize st.buffer).2
            totalSize := st.totalSize
            calls := st.calls ++
              List.zipWith (fun pn body => S3Call.uploadPart bucket key uploadId pn body)
                (List.range' st.partNumber (drainFull partSize st.buffer).1.length)
                (drainFull partSize st.buffer).1
            sent := sendAll sender st.sent
              ((List.range' st.partNumber (drainFull partSize st.buffer).1.length).map
                (fun pn => .PartUploaded pn st.totalSize (contentLength.getD 0))) } := by
  generalize hn : st.buffer.length = n
  induction n using Nat.strong_induction_on generalizing st with
  | _ n ih =>
    subst hn
    by_cases h : 0 < partSize ∧ partSize ≤ st.buffer.length
    · obtain ⟨o, ho⟩ := hpart st.partNumber
      rw [drainLoop_step_ok h ho,
          ih ((st.buffer.drop partSize).length) (by simp [List.length_drop]; omega) _ rfl,
          drainFull_step h]
      have hETag : o.getD "" = partETag store st.partNumber := by
        simp [partETag, ho]
      simp [List.range'_succ, sendProgress_sendAll, hETag, List.append_assoc,
            Nat.add_assoc, Nat.add_comm]
      omega
    · rw [drainLoop_stop h, drainFull_stop h]
      simp [sendAll_nil]

lemma chunkLoop_cons_ok {store : StoreModel} {bucket key uploadId : String}
    {partSize : Nat} {contentLength : Option Int} {sender : Option Unit}
    {st st2 : MpState} {c : List Nat} {rest : List (Except String (List Nat))}
    (hd : drainLoop store bucket key uploadId partSize contentLength sender
      { st with buffer := st.buffer ++ c
                totalSize := st.totalSize + (c.length : Int) } = .ok st2) :
    chunkLoop store bucket key uploadId partSize contentLength sender
        (.ok c :: rest) st =
      chunkLoop store bucket key uploadId partSize contentLength sender rest st2 := by
  simp only [chunkLoop, hd]

lemma chunkLoop_ok (store : StoreModel) (bucket key uploadId : String)
    (partSize : Nat) (contentLength : Option Int) (sender : Option Unit)
    (hpart : PartsOk store) (hP : 0 < partSize)
    (datas : List (List Nat)) (st : MpState) :
    chunkLoop store bucket key uploadId partSize contentLength sender
        (datas.map .ok) st =
      .ok { completedParts := st.completedParts ++
              (List.range' st.partNumber (assembleFrom partSize st.buffer datas).1.length).map
                (fun pn => (pn, partETag store pn))
            partNumber := st.partNumber + (assembleFrom partSize st.buffer datas).1.length
            buffer := (assembleFrom partSize st.buffer datas).2
            totalSize := st.totalSize + (datas.flatten.length : Int)
            calls := st.calls ++
              List.zipWith (fun pn body => S3Call.uploadPart bucket key uploadId pn body)
                (List.range' st.partNumber (assembleFrom partSize st.buffer datas).1.length)
                (assembleFrom partSize st.buffer datas).1
            sent := sendAll sender st.sent
              (chunkEvents partSize (contentLength.getD 0) st.partNumber st.totalSize
                st.buffer datas) } := by
  induction datas generalizing st with
  | nil =>
      simp [chunkLoop, assembleFrom, chunkEvents, sendAll_nil]
  | cons c cs ih =>
      rw [List.map_cons,
          chunkLoop_cons_ok (drainLoop_ok store bucket key uploadId partSize
            contentLength sender hpart hP _), ih]
      simp only [assembleFrom, chunkEvents, List.length_append]
      have hsplit : List.range' st.partNumber
            ((drainFull partSize (st.buffer ++ c)).1.length +
              (assembleFrom partSize (drainFull partSize (st.buffer ++ c)).2 cs).1.length)
          = List.range' st.partNumber (drainFull partSize (st.buffer ++ c)).1.length ++
            List.range' (st.partNumber + (drainFull partSize (st.buffer ++ c)).1.length)
              (assembleFrom partSize (drainFull partSize (st.buffer ++ c)).2 cs).1.length := by
        have := List.range'_append st.partNumber
          (drainFull partSize (st.buffer ++ c)).1.length
          (assembleFrom partSize (drainFull partSize (st.buffer ++ c)).2 cs).1.length 1
        simp only [Nat.mul_one, Nat.one_mul] at this
        rw [Nat.add_comm ((assembleFrom partSize (drainFull partSize (st.buffer ++ c)).2 cs).1.length)] at this
        exact this.symm
      rw [hsplit]
      rw [List.zipWith_append _ _ _ _ _ (by simp [List.length_range'])]
      rw [List.map_append]
      rw [← sendAll_append]
      simp [List.append_assoc, List.length_append, Nat.add_assoc]
      ring

lemma finalPart_ok (store : StoreModel) (bucket key uploadId : String)
    (contentLength : Option Int) (sender : Option Unit)
    (hpart : PartsOk store) (st : MpState) :
    finalPart store bucket key uploadId contentLength sender st =
      if st.buffer.isEmpty then .ok st
      else .ok { st with
          completedParts := st.completedParts ++
            [(st.partNumber, partETag store st.partNumber)]
          buffer := []
          calls := st.calls ++
            [S3Call.uploadPart bucket key uploadId st.partNumber st.buffer]
          sent := sendProgress sender st.sent
            (.PartUploaded st.partNumber st.totalSize (contentLength.getD 0)) } := by
  obtain ⟨o, ho⟩ := hpart st.partNumber
  by_cases hb : st.buffer.isEmpty <;> simp [finalPart, hb, ho, partETag]

lemma range'_split (s a b : Nat) :
    List.range' s (a + b) = List.range' s a ++ List.range' (s + a) b := by
  have h := List.range'_append s a b 1
  simp only [Nat.one_mul, Nat.mul_one] at h
  rw [Nat.add_comm b a] at h
  exact h.symm

/-- The parts a successful multipart run uploads: the drained parts plus
the final remainder part (when nonempty). -/
def runParts (P : Nat) (datas : List (List Nat)) : List (List Nat) :=
  (assembleFrom P [] datas).1 ++
    (if (assembleFrom P [] datas).2.isEmpty then []
     else [(assembleFrom P [] datas).2])

/-- The progress events following `Initiated` in a successful multipart
run: the chunk-loop events plus the final-part event (when a final
remainder part exists). -/
def runEvents (P : Nat) (clv : Int) (datas : List (List Nat)) :
    List UploadProgress :=
  chunkEvents P clv 1 0 [] datas ++
    (if (assembleFrom P [] datas).2.isEmpty then []
     else [.PartUploaded (1 + (assembleFrom P [] datas).1.length)
             (datas.flatten.length : Int) clv])

lemma runParts_eq_splitIntoParts {P : Nat} (hP : 0 < P)
    (datas : List (List Nat)) :
    runParts P datas = splitIntoParts P datas.flatten := by
  have h := (assembleFrom_spec hP datas [] (by simpa using hP)).1
  simpa [runParts] using h

/-- Full characterization of `upload_object_multipart` on an all-`Ok` chunk
stream against a store whose create, part-upload and complete calls all
succeed: the result, the exact call trace, and the exact progress-event
trace. -/
lemma uploadObjectMultipart_run (store : StoreModel)
    (bucket key contentType : String) (contentLength : Option Int)
    (sender : Option Unit) {uid : String} {co : Option String}
    (hcreate : store.createResult = .ok (some uid))
    (hpart : PartsOk store)
    (hcomplete : store.completeResult = .ok co)
    {P : Nat} (hP : 0 < P) (datas : List (List Nat)) :
    uploadObjectMultipart store bucket key contentType contentLength
        (datas.map .ok) (some P) sender =
      (.ok { bucket := bucket, key := key, etag := trimQuotes (co.getD "")
             size := (datas.flatten.length : Int) },
       S3Call.createMultipartUpload bucket key contentType ::
         (List.zipWith (fun pn body => S3Call.uploadPart bucket key uid pn body)
           (List.range' 1 (runParts P datas).length) (runParts P datas) ++
          [S3Call.completeMultipartUpload bucket key uid
            ((List.range' 1 (runParts P datas).length).map
              (fun pn => (pn, partETag store pn)))]),
       sendAll sender []
         (UploadProgress.Initiated uid bucket key ::
           runEvents P (contentLength.getD 0) datas)) := by
  unfold uploadObjectMultipart
  rw [hcreate]
  simp only [Option.getD_some]
  rw [chunkLoop_ok store bucket key uid P contentLength sender hpart hP datas]
  simp only []
  rw [finalPart_ok store bucket key uid contentLength sender hpart]
  by_cases hrem : (assembleFrom P [] datas).2.isEmpty
  · simp only [hrem, if_true]
    rw [hcomplete]
    simp only [runParts, runEvents, hrem, if_true, List.append_nil]
    simp [sendProgress_sendAll, sendAll_append]
  · simp only [hrem, if_false, Bool.false_eq_true]
    rw [hcomplete]
    simp only [runParts, runEvents, hrem, if_false, Bool.false_eq_true]
    have hlen : (assembleFrom P [] datas).1.length + 1 =
        ((assembleFrom P [] datas).1 ++ [(assembleFrom P [] datas).2]).length := by
      simp
    rw [show List.range' 1
          ((assembleFrom P [] datas).1 ++ [(assembleFrom P [] datas).2]).length
        = List.range' 1 (assembleFrom P [] datas).1.length ++
          [1 + (assembleFrom P [] datas).1.length] from by
      rw [← hlen, range'_split]
      simp]
    rw [List.zipWith_append _ _ _ _ _ (by simp [List.length_range'])]
    simp [sendProgress_sendAll, sendProgress_eq_sendAll, sendAll_append,
          List.append_assoc]

-- ===== Progress-sink independence =====

/-- Erase the progress-event trace from a state (for comparing runs that
differ only in their progress sink). -/
def MpState.stripSent (st : MpState) : MpState := { st with sent := [] }

/-- Erase the progress-event trace from a phase outcome. -/
def PhaseOutcome.stripSent : PhaseOutcome → PhaseOutcome
  | .ok st => .ok st.stripSent
  | .chunkFail st m => .chunkFail st.stripSent m
  | .remoteFail st m => .remoteFail st.stripSent m

lemma stripSent_fields {st1 st2 : MpState} (h : st1.stripSent = st2.stripSent) :
    st1.completedParts = st2.completedParts ∧ st1.partNumber = st2.partNumber ∧
    st1.buffer = st2.buffer ∧ st1.totalSize = st2.totalSize ∧
    st1.calls = st2.calls := by
  cases st1
  cases st2
  simp only [MpState.stripSent, MpState.mk.injEq] at h
  simp only [MpState.mk.injEq]
  exact ⟨h.1, h.2.1, h.2.2.1, h.2.2.2.1, h.2.2.2.2.1⟩

lemma drainLoop_strip (store : StoreModel) (bucket key uploadId : String)
    (partSize : Nat) (contentLength : Option Int) (s1 s2 : Option Unit)
    (st1 st2 : MpState) (h : st1.stripSent = st2.stripSent) :
    (drainLoop store bucket key uploadId partSize contentLength s1 st1).stripSent =
      (drainLoop store bucket key uploadId partSize contentLength s2 st2).stripSent := by
  obtain ⟨hcp, hpn, hbuf, hts, hcalls⟩ := stripSent_fields h
  generalize hn : st1.buffer.length = n
  induction n using Nat.strong_induction_on generalizing st1 st2 with
  | _ n ih =>
    subst hn
    by_cases hcond : 0 < partSize ∧ partSize ≤ st1.buffer.length
    · have hcond2 : 0 < partSize ∧ partSize ≤ st2.buffer.length := by rw [← hbuf]; exact hcond
      cases he : store.uploadPartResult st1.partNumber with
      | error e =>
          rw [drainLoop_step_err hcond he, drainLoop_step_err hcond2 (by rw [← hpn]; exact he)]
          simp [PhaseOutcome.stripSent, MpState.stripSent, hbuf, hcalls, hpn, hcp, hts]
      | ok o =>
          rw [drainLoop_step_ok hcond he, drainLoop_step_ok hcond2 (by rw [← hpn]; exact he)]
          exact ih ((st1.buffer.drop partSize).length)
            (by simp [List.length_drop]; omega) _ _
            (by simp [MpState.stripSent, hbuf, hcalls, hpn, hcp, hts])
            (by simp [hcp, hpn]) (by simp [hpn]) (by simp [hbuf])
            (by simp [hts]) (by simp [hcalls, hpn, hbuf])
            rfl
    · have hcond2 : ¬(0 < partSize ∧ partSize ≤ st2.buffer.length) := by
        rw [← hbuf]; exact hcond
      rw [drainLoop_stop hcond, drainLoop_stop hcond2]
      simpa [PhaseOutcome.stripSent] using h

lemma chunkLoop_strip (store : StoreModel) (bucket key uploadId : String)
    (partSize : Nat) (contentLength : Option Int) (s1 s2 : Option Unit)
    (chunks : List (Except String (List Nat))) (st1 st2 : MpState)
    (h : st1.stripSent = st2.stripSent) :
    (chunkLoop store bucket key uploadId partSize contentLength s1 chunks st1).stripSent =
      (chunkLoop store bucket key uploadId partSize contentLength s2 chunks st2).stripSent := by
  induction chunks generalizing st1 st2 with
  | nil => simpa [chunkLoop, PhaseOutcome.stripSent] using h
  | cons c rest ih =>
    obtain ⟨hcp, hpn, hbuf, hts, hcalls⟩ := stripSent_fields h
    cases c with
    | error e =>
        simp [chunkLoop, PhaseOutcome.stripSent, MpState.stripSent, hcalls,
              hcp, hpn, hbuf, hts]
    | ok chunk =>
        simp only [chunkLoop]
        have hd := drainLoop_strip store bucket key uploadId partSize contentLength s1 s2
          { st1 with buffer := st1.buffer ++ chunk
                     totalSize := st1.totalSize + (chunk.length : Int) }
          { st2 with buffer := st2.buffer ++ chunk
                     totalSize := st2.totalSize + (chunk.length : Int) }
          (by simp [MpState.stripSent, hbuf, hcalls, hpn, hcp, hts])
        cases h1 : drainLoop store bucket key uploadId partSize contentLength s1
            { st1 with buffer := st1.buffer ++ chunk
                       totalSize := st1.totalSize + (chunk.length : Int) } with
        | ok stA =>
            cases h2 : drainLoop store bucket key uploadId partSize contentLength s2
                { st2 with buffer := st2.buffer ++ chunk
                           totalSize := st2.totalSize + (chunk.length : Int) } with
            | ok stB =>
                simp only [h1, h2] at hd ⊢
                exact ih _ _ (by simpa [PhaseOutcome.stripSent] using hd)
            | chunkFail stB m => rw [h1, h2] at hd; simp [PhaseOutcome.stripSent] at hd
            | remoteFail stB m => rw [h1, h2] at hd; simp [PhaseOutcome.stripSent] at hd
        | chunkFail stA m =>
            cases h2 : drainLoop store bucket key uploadId partSize contentLength s2
                { st2 with buffer := st2.buffer ++ chunk
                           totalSize := st2.totalSize + (chunk.length : Int) } with
            | ok stB => rw [h1, h2] at hd; simp [PhaseOutcome.stripSent] at hd
            | chunkFail stB m' =>
                rw [h1, h2] at hd
                simpa [PhaseOutcome.stripSent] using hd
            | remoteFail stB m' => rw [h1, h2] at hd; simp [PhaseOutcome.stripSent] at hd
        | remoteFail stA m =>
            cases h2 : drainLoop store bucket key uploadId partSize contentLength s2
                { st2 with buffer := st2.buffer ++ chunk
                           totalSize := st2.totalSize + (chunk.length : Int) } with
            | ok stB => rw [h1, h2] at hd; simp [PhaseOutcome.stripSent] at hd
            | chunkFail stB m' => rw [h1, h2] at hd; simp [PhaseOutcome.stripSent] at hd
            | remoteFail stB m' =>
                rw [h1, h2] at hd
                simpa [PhaseOutcome.stripSent] using hd

lemma finalPart_strip (store : StoreModel) (bucket key uploadId : String)
    (contentLength : Option Int) (s1 s2 : Option Unit) (st1 st2 : MpState)
    (h : st1.stripSent = st2.stripSent) :
    (finalPart store bucket key uploadId contentLength s1 st1).stripSent =
      (finalPart store bucket key uploadId contentLength s2 st2).stripSent := by
  obtain ⟨hcp, hpn, hbuf, hts, hcalls⟩ := stripSent_fields h
  by_cases hb : st1.buffer.isEmpty
  · simpa [finalPart, hb, hbuf ▸ hb, PhaseOutcome.stripSent] using h
  · have hb2 : ¬st2.buffer.isEmpty = true := by rw [← hbuf]; exact hb
    cases he : store.uploadPartResult st1.partNumber with
    | error e =>
        simp [finalPart, hb, hb2, he, ← hpn, PhaseOutcome.stripSent,
              MpState.stripSent, hbuf, hcalls, hcp, hts]
    | ok o =>
        simp [finalPart, hb, hb2, he, ← hpn, PhaseOutcome.stripSent,
              MpState.stripSent, hbuf, hcalls, hcp, hts]

/-- Result and call trace of `upload_object_multipart` do not depend on the
progress sink at all (the source never reads a send's outcome). -/
lemma uploadObjectMultipart_sender_agnostic (store : StoreModel)
    (bucket key contentType : String) (contentLength : Option Int)
    (chunks : List (Except String (List Nat))) (partSizeArg : Option Nat)
    (s1 s2 : Option Unit) :
    ((uploadObjectMultipart store bucket key contentType contentLength chunks
        partSizeArg s1).1,
     (uploadObjectMultipart store bucket key contentType contentLength chunks
        partSizeArg s1).2.1) =
      ((uploadObjectMultipart store bucket key contentType contentLength chunks
          partSizeArg s2).1,
       (uploadObjectMultipart store bucket key contentType contentLength chunks
          partSizeArg s2).2.1) := by
  unfold uploadObjectMultipart
  cases hc : store.createResult with
  | error e => simp
  | ok o =>
    cases o with
    | none => simp
    | some uid =>
      simp only []
      have hcl := chunkLoop_strip store bucket key uid (partSizeArg.getD (5 * 1024 * 1024))
        contentLength s1 s2 chunks
        { completedParts := [], partNumber := 1, buffer := [], totalSize := 0
          calls := [S3Call.createMultipartUpload bucket key contentType]
          sent := sendProgress s1 [] (.Initiated uid bucket key) }
        { completedParts := [], partNumber := 1, buffer := [], totalSize := 0
          calls := [S3Call.createMultipartUpload bucket key contentType]
          sent := sendProgress s2 [] (.Initiated uid bucket key) }
        (by simp [MpState.stripSent])
      cases h1 : chunkLoop store bucket key uid (partSizeArg.getD (5 * 1024 * 1024))
          contentLength s1 chunks
          { completedParts := [], partNumber := 1, buffer := [], totalSize := 0
            calls := [S3Call.createMultipartUpload bucket key contentType]
            sent := sendProgress s1 [] (.Initiated uid bucket key) } with
      | chunkFail stA m =>
          cases h2 : chunkLoop store bucket key uid (partSizeArg.getD (5 * 1024 * 1024))
              contentLength s2 chunks
              { completedParts := [], partNumber := 1, buffer := [], totalSize := 0
                calls := [S3Call.createMultipartUpload bucket key contentType]
                sent := sendProgress s2 [] (.Initiated uid bucket key) } with
          | ok stB => rw [h1, h2] at hcl; simp [PhaseOutcome.stripSent] at hcl
          | chunkFail stB m' =>
              rw [h1, h2] at hcl
              simp only [PhaseOutcome.stripSent, PhaseOutcome.chunkFail.injEq] at hcl
              have : stA.calls = stB.calls := (stripSent_fields hcl.1).2.2.2.2
              simp [h1, h2, this, hcl.2]
          | remoteFail stB m' => rw [h1, h2] at hcl; simp [PhaseOutcome.stripSent] at hcl
      | remoteFail stA m =>
          cases h2 : chunkLoop store bucket key uid (partSizeArg.getD (5 * 1024 * 1024))
              contentLength s2 chunks
              { completedParts := [], partNumber := 1, buffer := [], totalSize := 0
                calls := [S3Call.createMultipartUpload bucket key contentType]
                sent := sendProgress s2 [] (.Initiated uid bucket key) } with
          | ok stB => rw [h1, h2] at hcl; simp [PhaseOutcome.stripSent] at hcl
          | chunkFail stB m' => rw [h1, h2] at hcl; simp [PhaseOutcome.stripSent] at hcl
          | remoteFail stB m' =>
              rw [h1, h2] at hcl
              simp only [PhaseOutcome.stripSent, PhaseOutcome.remoteFail.injEq] at hcl
              have : stA.calls = stB.calls := (stripSent_fields hcl.1).2.2.2.2
              simp [h1, h2, this, hcl.2]
      | ok stA =>
          cases h2 : chunkLoop store bucket key uid (partSizeArg.getD (5 * 1024 * 1024))
              contentLength s2 chunks
              { completedParts := [], partNumber := 1, buffer := [], totalSize := 0
                calls := [S3Call.createMultipartUpload bucket key contentType]
                sent := sendProgress s2 [] (.Initiated uid bucket key) } with
          | chunkFail stB m' => rw [h1, h2] at hcl; simp [PhaseOutcome.stripSent] at hcl
          | remoteFail stB m' => rw [h1, h2] at hcl; simp [PhaseOutcome.stripSent] at hcl
          | ok stB =>
              rw [h1, h2] at hcl
              simp only [PhaseOutcome.stripSent, PhaseOutcome.ok.injEq] at hcl
              have hfp := finalPart_strip store bucket key uid contentLength s1 s2
                stA stB hcl
              cases hf1 : finalPart store bucket key uid contentLength s1 stA with
              | chunkFail stC m =>
                  cases hf2 : finalPart store bucket key uid contentLength s2 stB with
                  | ok stD => rw [hf1, hf2] at hfp; simp [PhaseOutcome.stripSent] at hfp
                  | chunkFail stD m' =>
                      rw [hf1, hf2] at hfp
                      simp only [PhaseOutcome.stripSent, PhaseOutcome.chunkFail.injEq] at hfp
                      have : stC.calls = stD.calls := (stripSent_fields hfp.1).2.2.2.2
                      simp [h1, h2, hf1, hf2, this, hfp.2]
                  | remoteFail stD m' => rw [hf1, hf2] at hfp; simp [PhaseOutcome.stripSent] at hfp
              | remoteFail stC m =>
                  cases hf2 : finalPart store bucket key uid contentLength s2 stB with
                  | ok stD => rw [hf1, hf2] at hfp; simp [PhaseOutcome.stripSent] at hfp
                  | chunkFail stD m' => rw [hf1, hf2] at hfp; simp [PhaseOutcome.stripSent] at hfp
                  | remoteFail stD m' =>
                      rw [hf1, hf2] at hfp
                      simp only [PhaseOutcome.stripSent, PhaseOutcome.remoteFail.injEq] at hfp
                      have : stC.calls = stD.calls := (stripSent_fields hfp.1).2.2.2.2
                      simp [h1, h2, hf1, hf2, this, hfp.2]
              | ok stC =>
                  cases hf2 : finalPart store bucket key uid contentLength s2 stB with
                  | chunkFail stD m' => rw [hf1, hf2] at hfp; simp [PhaseOutcome.stripSent] at hfp
                  | remoteFail stD m' => rw [hf1, hf2] at hfp; simp [PhaseOutcome.stripSent] at hfp
                  | ok stD =>
                      rw [hf1, hf2] at hfp
                      simp only [PhaseOutcome.stripSent, PhaseOutcome.ok.injEq] at hfp
                      obtain ⟨hcp, -, -, hts, hcalls⟩ := stripSent_fields hfp
                      cases store.completeResult <;>
                        simp [h1, h2, hf1, hf2, hcalls, hcp, hts]

-- ===== Failure-path lemmas =====

/-- The state carried by a phase outcome. -/
def PhaseOutcome.state : PhaseOutcome → MpState
  | .ok st => st
  | .chunkFail st _ => st
  | .remoteFail st _ => st

lemma abortCallIds_append (xs ys : List S3Call) :
    abortCallIds (xs ++ ys) = abortCallIds xs ++ abortCallIds ys := by
  simp [abortCallIds]

lemma completeCallArgs_append (xs ys : List S3Call) :
    completeCallArgs (xs ++ ys) = completeCallArgs xs ++ completeCallArgs ys := by
  simp [completeCallArgs]

lemma uploadPartNumbers_append (xs ys : List S3Call) :
    uploadPartNumbers (xs ++ ys) = uploadPartNumbers xs ++ uploadPartNumbers ys := by
  simp [uploadPartNumbers]

lemma partBodies_append (xs ys : List S3Call) :
    partBodies (xs ++ ys) = partBodies xs ++ partBodies ys := by
  simp [partBodies]

/-- Processing a concatenated chunk stream: run the first stream, and on a
normal finish continue with the second from the reached state. -/
lemma chunkLoop_append (store : StoreModel) (bucket key uploadId : String)
    (partSize : Nat) (contentLength : Option Int) (sender : Option Unit)
    (xs ys : List (Except String (List Nat))) (st : MpState) :
    chunkLoop store bucket key uploadId partSize contentLength sender (xs ++ ys) st =
      match chunkLoop store bucket key uploadId partSize contentLength sender xs st with
      | .ok st' => chunkLoop store bucket key uploadId partSize contentLength sender ys st'
      | r => r := by
  induction xs generalizing st with
  | nil => simp [chunkLoop]
  | cons x xs ih =>
    cases x with
    | error e => simp [chunkLoop]
    | ok chunk =>
      simp only [List.cons_append, chunkLoop]
      cases hd : drainLoop store bucket key uploadId partSize contentLength sender
          { st with buffer := st.buffer ++ chunk
                    totalSize := st.totalSize + (chunk.length : Int) } with
      | ok st'' => exact ih st''
      | chunkFail st'' m => rfl
      | remoteFail st'' m => rfl

/-- An `Err` chunk at the head: abort is recorded and the loop fails. -/
lemma chunkLoop_error (store : StoreModel) (bucket key uploadId : String)
    (partSize : Nat) (contentLength : Option Int) (sender : Option Unit)
    (msg : String) (rest : List (Except String (List Nat))) (st : MpState) :
    chunkLoop store bucket key uploadId partSize contentLength sender
        (.error msg :: rest) st =
      .chunkFail
        { st with calls := st.calls ++ [S3Call.abortMultipartUpload bucket key uploadId] }
        ("Chunk error: " ++ msg) := by
  simp [chunkLoop]

/-- The drain loop never records an abort call. -/
lemma drainLoop_abortIds (store : StoreModel) (bucket key uploadId : String)
    (partSize : Nat) (contentLength : Option Int) (sender : Option Unit)
    (st : MpState) :
    abortCallIds (drainLoop store bucket key uploadId partSize contentLength
        sender st).state.calls = abortCallIds st.calls := by
  generalize hn : st.buffer.length = n
  induction n using Nat.strong_induction_on generalizing st with
  | _ n ih =>
    subst hn
    by_cases h : 0 < partSize ∧ partSize ≤ st.buffer.length
    · cases he : store.uploadPartResult st.partNumber with
      | error e =>
          rw [drainLoop_step_err h he]
          simp [PhaseOutcome.state, abortCallIds_append, abortCallIds]
      | ok o =>
          rw [drainLoop_step_ok h he]
          rw [ih ((st.buffer.drop partSize).length) (by simp [List.length_drop]; omega) _ rfl]
          simp [abortCallIds_append, abortCallIds]
    · rw [drainLoop_stop h]
      rfl

/-- On an all-`Ok` chunk stream the chunk loop never records an abort. -/
lemma chunkLoop_abortIds (store : StoreModel) (bucket key uploadId : String)
    (partSize : Nat) (contentLength : Option Int) (sender : Option Unit)
    (datas : List (List Nat)) (st : MpState) :
    abortCallIds (chunkLoop store bucket key uploadId partSize contentLength
        sender (datas.map .ok) st).state.calls = abortCallIds st.calls := by
  induction datas generalizing st with
  | nil => simp [chunkLoop, PhaseOutcome.state]
  | cons c cs ih =>
    simp only [List.map_cons, chunkLoop]
    have hd := drainLoop_abortIds store bucket key uploadId partSize contentLength sender
      { st with buffer := st.buffer ++ c, totalSize := st.totalSize + (c.length : Int) }
    cases hdr : drainLoop store bucket key uploadId partSize contentLength sender
        { st with buffer := st.buffer ++ c
                  totalSize := st.totalSize + (c.length : Int) } with
    | ok st'' =>
        rw [hdr] at hd
        rw [ih st'']
        simpa [PhaseOutcome.state] using hd
    | chunkFail st'' m =>
        rw [hdr] at hd
        simpa [PhaseOutcome.state] using hd
    | remoteFail st'' m =>
        rw [hdr] at hd
        simpa [PhaseOutcome.state] using hd

/-- The final-part step never records an abort. -/
lemma finalPart_abortIds (store : StoreModel) (bucket key uploadId : String)
    (contentLength : Option Int) (sender : Option Unit) (st : MpState) :
    abortCallIds (finalPart store bucket key uploadId contentLength
        sender st).state.calls = abortCallIds st.calls := by
  by_cases hb : st.buffer.isEmpty
  · simp [finalPart, hb, PhaseOutcome.state]
  · cases he : store.uploadPartResult st.partNumber with
    | error e => simp [finalPart, hb, he, PhaseOutcome.state, abortCallIds_append, abortCallIds]
    | ok o => simp [finalPart, hb, he, PhaseOutcome.state, abortCallIds_append, abortCallIds]

/-- `upload_object_multipart` never issues an abort unless the chunk source
yields an error: on an all-`Ok` stream the trace contains no abort call,
whatever the store answers. -/
lemma uploadObjectMultipart_no_abort (store : StoreModel)
    (bucket key contentType : String) (contentLength : Option Int)
    (datas : List (List Nat)) (partSizeArg : Option Nat) (sender : Option Unit) :
    abortCallIds (uploadObjectMultipart store bucket key contentType contentLength
        (datas.map .ok) partSizeArg sender).2.1 = [] := by
  unfold uploadObjectMultipart
  cases hc : store.createResult with
  | error e => simp [abortCallIds]
  | ok o =>
    cases o with
    | none => simp [abortCallIds]
    | some uid =>
      simp only []
      have hcl := chunkLoop_abortIds store bucket key uid
        (partSizeArg.getD (5 * 1024 * 1024)) contentLength sender datas
        { completedParts := [], partNumber := 1, buffer := [], totalSize := 0
          calls := [S3Call.createMultipartUpload bucket key contentType]
          sent := sendProgress sender [] (.Initiated uid bucket key) }
      cases h1 : chunkLoop store bucket key uid (partSizeArg.getD (5 * 1024 * 1024))
          contentLength sender (datas.map .ok)
          { completedParts := [], partNumber := 1, buffer := [], totalSize := 0
            calls := [S3Call.createMultipartUpload bucket key contentType]
            sent := sendProgress sender [] (.Initiated uid bucket key) } with
      | chunkFail stA m =>
          rw [h1] at hcl
          simpa [PhaseOutcome.state, abortCallIds] using hcl
      | remoteFail stA m =>
          rw [h1] at hcl
          simpa [PhaseOutcome.state, abortCallIds] using hcl
      | ok stA =>
          rw [h1] at hcl
          simp only [PhaseOutcome.state] at hcl
          have hfp := finalPart_abortIds store bucket key uid contentLength sender stA
          cases h2 : finalPart store bucket key uid contentLength sender stA with
          | chunkFail stB m =>
              rw [h2] at hfp
              simp only [PhaseOutcome.state] at hfp
              simp only [h1, h2]
              rw [hfp, hcl]
              rfl
          | remoteFail stB m =>
              rw [h2] at hfp
              simp only [PhaseOutcome.state] at hfp
              simp only [h1, h2]
              rw [hfp, hcl]
              rfl
          | ok stB =>
              rw [h2] at hfp
              simp only [PhaseOutcome.state] at hfp
              simp only [h1, h2]
              cases hcomp : store.completeResult <;>
                simp only [hcomp] <;> rw [abortCallIds_append, hfp, hcl] <;> rfl

lemma completeCallArgs_uploadParts (bucket key uploadId : String)
    (pns : List Nat) (parts : List (List Nat)) :
    completeCallArgs (List.zipWith
      (fun pn body => S3Call.uploadPart bucket key uploadId pn body) pns parts) = [] := by
  induction pns generalizing parts with
  | nil => rfl
  | cons p ps ih =>
      cases parts with
      | nil => rfl
      | cons b bs => simpa [completeCallArgs] using ih bs

lemma abortCallIds_uploadParts (bucket key uploadId : String)
    (pns : List Nat) (parts : List (List Nat)) :
    abortCallIds (List.zipWith
      (fun pn body => S3Call.uploadPart bucket key uploadId pn body) pns parts) = [] := by
  induction pns generalizing parts with
  | nil => rfl
  | cons p ps ih =>
      cases parts with
      | nil => rfl
      | cons b bs => simpa [abortCallIds] using ih bs

lemma partBodies_zipWith (bucket key uploadId : String)
    (pns : List Nat) (parts : List (List Nat)) (h : pns.length = parts.length) :
    partBodies (List.zipWith
      (fun pn body => S3Call.uploadPart bucket key uploadId pn body) pns parts) = parts := by
  induction pns generalizing parts with
  | nil => cases parts with
      | nil => rfl
      | cons b bs => simp at h
  | cons p ps ih =>
      cases parts with
      | nil => simp at h
      | cons b bs =>
          simp only [List.length_cons, Nat.add_right_cancel_iff] at h
          simpa [partBodies] using ih bs h

lemma uploadPartNumbers_zipWith (bucket key uploadId : String)
    (pns : List Nat) (parts : List (List Nat)) (h : pns.length = parts.length) :
    uploadPartNumbers (List.zipWith
      (fun pn body => S3Call.uploadPart bucket key uploadId pn body) pns parts) = pns := by
  induction pns generalizing parts with
  | nil => cases parts with
      | nil => rfl
      | cons b bs => simp at h
  | cons p ps ih =>
      cases parts with
      | nil => simp at h
      | cons b bs =>
          simp only [List.length_cons, Nat.add_right_cancel_iff] at h
          simpa [uploadPartNumbers] using ih bs h

/-- Full characterization of a run whose chunk source fails after `good`
chunks (store create and part uploads succeeding): abort is issued for the
session's upload id, complete is never issued, and the original chunk error
is returned — whatever `store.abortResult` is, since the source discards
the abort call's own outcome. -/
lemma uploadObjectMultipart_chunkErr (store : StoreModel)
    (bucket key contentType : String) (contentLength : Option Int)
    (sender : Option Unit) {uid : String}
    (hcreate : store.createResult = .ok (some uid)) (hpart : PartsOk store)
    {P : Nat} (hP : 0 < P) (good : List (List Nat)) (msg : String)
    (rest : List (Except String (List Nat))) :
    uploadObjectMultipart store bucket key contentType contentLength
        (good.map .ok ++ .error msg :: rest) (some P) sender =
      (.error (.InternalError ("Chunk error: " ++ msg)),
       (S3Call.createMultipartUpload bucket key contentType ::
         List.zipWith (fun pn body => S3Call.uploadPart bucket key uid pn body)
           (List.range' 1 (assembleFrom P [] good).1.length)
           (assembleFrom P [] good).1) ++
         [S3Call.abortMultipartUpload bucket key uid],
       sendAll sender [] (UploadProgress.Initiated uid bucket key ::
         chunkEvents P (contentLength.getD 0) 1 0 [] good)) := by
  unfold uploadObjectMultipart
  rw [hcreate]
  simp only [Option.getD_some]
  rw [chunkLoop_append, chunkLoop_ok store bucket key uid P contentLength sender hpart hP good]
  simp only []
  rw [chunkLoop_error]
  simp [sendProgress_eq_sendAll, sendAll_append, List.append_assoc]

/-- If the store rejects part 1 and all chunks are `Ok`, the chunk loop
either finishes having buffered everything (total below one part) or fails
with the store's error having recorded only `UploadPart` attempts. -/
lemma chunkLoop_part1_fail (store : StoreModel) (bucket key uploadId : String)
    (partSize : Nat) (contentLength : Option Int) (sender : Option Unit)
    (hP : 0 < partSize) {m : String}
    (hfail : store.uploadPartResult 1 = .error m) (datas : List (List Nat)) :
    ∀ st : MpState, st.partNumber = 1 → st.buffer.length < partSize →
      (if (st.buffer ++ datas.flatten).length < partSize then
        chunkLoop store bucket key uploadId partSize contentLength sender
            (datas.map .ok) st =
          .ok { st with buffer := st.buffer ++ datas.flatten
                        totalSize := st.totalSize + (datas.flatten.length : Int) }
       else ∃ stE, chunkLoop store bucket key uploadId partSize contentLength sender
              (datas.map .ok) st = .remoteFail stE m ∧
            completeCallArgs stE.calls = completeCallArgs st.calls ∧
            abortCallIds stE.calls = abortCallIds st.calls) := by
  induction datas with
  | nil =>
      intro st hpn hbuf
      simp only [List.flatten_nil, List.append_nil, List.map_nil]
      rw [if_pos (by simpa using hbuf)]
      simp [chunkLoop]
  | cons c cs ih =>
      intro st hpn hbuf
      simp only [List.map_cons, chunkLoop, List.flatten_cons]
      by_cases hlen : (st.buffer ++ c).length < partSize
      · rw [drainLoop_stop (by
          show ¬(0 < partSize ∧ partSize ≤ (st.buffer ++ c).length)
          omega)]
        have hstep := ih { st with buffer := st.buffer ++ c
                                   totalSize := st.totalSize + (c.length : Int) }
          (by simpa using hpn) (by simpa using hlen)
        by_cases hall : (st.buffer ++ (c ++ cs.flatten)).length < partSize
        · rw [if_pos hall]
          rw [if_pos (by
            show ((st.buffer ++ c) ++ cs.flatten).length < partSize
            simp only [List.length_append] at hall ⊢
            omega)] at hstep
          simpa [List.append_assoc, add_assoc] using hstep
        · rw [if_neg hall]
          rw [if_neg (by
            show ¬((st.buffer ++ c) ++ cs.flatten).length < partSize
            simp only [List.length_append] at hall ⊢
            omega)] at hstep
          simpa [List.append_assoc, add_assoc] using hstep
      · rw [if_neg (by
          simp only [List.length_append] at hlen ⊢
          omega)]
        rw [drainLoop_step_err (by
          show 0 < partSize ∧ partSize ≤ (st.buffer ++ c).length
          omega)
          (by simpa using hpn ▸ hfail)]
        refine ⟨_, rfl, ?_, ?_⟩
        · simp [completeCallArgs_append, completeCallArgs]
        · simp [abortCallIds_append, abortCallIds]

/-- A store failure on the very first part upload propagates as the
original error with neither Complete nor Abort issued. -/
lemma uploadObjectMultipart_part1_fail (store : StoreModel)
    (bucket key contentType : String) (contentLength : Option Int)
    (sender : Option Unit) {uid m : String}
    (hcreate : store.createResult = .ok (some uid))
    (hfail : store.uploadPartResult 1 = .error m)
    {P : Nat} (hP : 0 < P) (datas : List (List Nat))
    (hjoin : datas.flatten ≠ []) :
    (uploadObjectMultipart store bucket key contentType contentLength
        (datas.map .ok) (some P) sender).1 = .error (.InternalError m) ∧
    completeCallArgs (uploadObjectMultipart store bucket key contentType contentLength
        (datas.map .ok) (some P) sender).2.1 = [] ∧
    abortCallIds (uploadObjectMultipart store bucket key contentType contentLength
        (datas.map .ok) (some P) sender).2.1 = [] := by
  unfold uploadObjectMultipart
  rw [hcreate]
  simp only [Option.getD_some]
  have hrun := chunkLoop_part1_fail store bucket key uid P contentLength sender hP hfail
    datas
    { completedParts := [], partNumber := 1, buffer := [], totalSize := 0
      calls := [S3Call.createMultipartUpload bucket key contentType]
      sent := sendProgress sender [] (.Initiated uid bucket key) }
    rfl (by simpa using hP)
  by_cases hall : (([] : List Nat) ++ datas.flatten).length < P
  · rw [if_pos hall] at hrun
    rw [hrun]
    simp only []
    have hne : ¬(datas.flatten.isEmpty = true) := by
      simpa [List.isEmpty_iff] using hjoin
    rw [show finalPart store bucket key uid contentLength sender
          { completedParts := [], partNumber := 1
            buffer := ([] : List Nat) ++ datas.flatten
            totalSize := 0 + (datas.flatten.length : Int)
            calls := [S3Call.createMultipartUpload bucket key contentType]
            sent := sendProgress sender [] (.Initiated uid bucket key) } =
        .remoteFail
          { completedParts := [], partNumber := 1
            buffer := ([] : List Nat) ++ datas.flatten
            totalSize := 0 + (datas.flatten.length : Int)
            calls := [S3Call.createMultipartUpload bucket key contentType] ++
              [S3Call.uploadPart bucket key uid 1 (([] : List Nat) ++ datas.flatten)]
            sent := sendProgress sender [] (.Initiated uid bucket key) } m from by
      simp [finalPart, hne, hfail]]
    simp [completeCallArgs_append, abortCallIds_append, completeCallArgs, abortCallIds]
  · rw [if_neg hall] at hrun
    obtain ⟨stE, hrun, hcomp, habort⟩ := hrun
    rw [hrun]
    refine ⟨rfl, ?_, ?_⟩
    · show completeCallArgs stE.calls = []
      rw [hcomp]
      rfl
    · show abortCallIds stE.calls = []
      rw [habort]
      rfl

-- ===== Recursive-delete characterization =====

lemma pageToken_length (n : Nat) : (pageToken n).length = n := by
  simp [pageToken, String.length]

lemma listCallCount_append (xs ys : List ListDelCall) :
    listCallCount (xs ++ ys) = listCallCount xs + listCallCount ys := by
  simp [listCallCount, List.filter_append]

lemma deleteCallKeys_append (xs ys : List ListDelCall) :
    deleteCallKeys (xs ++ ys) = deleteCallKeys xs ++ deleteCallKeys ys := by
  simp [deleteCallKeys]

lemma canonical_listResult (keys : List String) (n : Nat) :
    (canonicalListStore keys).listResult
        (if n = 0 then none else some (pageToken n)) =
      .ok (canonicalPage keys n) := by
  cases n with
  | zero => simp [canonicalListStore]
  | succ m => simp [canonicalListStore, pageToken_length]



lemma filterMap_key_mk (l : List String) :
    List.filterMap (fun x => x.key)
      (l.map (fun k => RawDeletedObject.mk (some k))) = l := by
  induction l with
  | nil => rfl
  | cons a l ih => simp only [List.map_cons, List.filterMap_cons, ih]

lemma take_mk_ne_nil {l : List String} (h : l ≠ []) :
    (l.take 1000).map
      (fun k => RawS3Object.mk (some k) (some 0) none none none) ≠ [] := by
  intro hc
  rcases l with _ | ⟨a, l⟩
  · exact h rfl
  · simp at hc

/-- The key list extracted from a canonical page. -/
lemma canonicalPage_objects_keys (keys : List String) (n : Nat) :
    (((canonicalPage keys n).contents.map (fun o =>
        ObjectInfo.mk (o.key.getD "") (o.size.getD 0) (o.lastModified.getD "")
          (trimQuotes (o.etag.getD "")) (o.storageClass.getD ""))).map
      (fun o => o.key)) = (keys.drop (1000 * n)).take 1000 := by
  simp [canonicalPage, List.map_map, Function.comp_def]



lemma take1000_ne_nil {l : List String} (h : l ≠ []) : l.take 1000 ≠ [] := by
  rcases l with _ | ⟨a, l⟩
  · exact absurd rfl h
  · simp

lemma canonicalPage_objects_ne {keys : List String} {n : Nat}
    (hne : keys.drop (1000 * n) ≠ []) (f : RawS3Object → ObjectInfo) :
    (List.map f (canonicalPage keys n).contents).isEmpty = false := by
  rcases hh : keys.drop (1000 * n) with _ | ⟨a, l⟩
  · exact absurd hh hne
  · simp [canonicalPage, hh]

lemma deleteObjectsOp_canonical (keys ks : List String) (bucket : String)
    (h : ks ≠ []) :
    deleteObjectsOp (canonicalListStore keys) bucket ks =
      ([ListDelCall.deleteObjectsCall bucket ks],
       .ok { deleted := ks, errors := [] }) := by
  rw [deleteObjectsOp, if_neg (by simpa [List.isEmpty_iff] using h)]
  simp only [canonicalListStore, List.map_nil, Prod.mk.injEq, true_and]
  rw [filterMap_key_mk]

lemma deleteRecLoop_iter_empty (keys : List String) (bucket pfxS : String)
    (fuel n : Nat) (accDel : List String) (accErr : List DeleteError)
    (calls : List ListDelCall) (hempty : keys.drop (1000 * n) = []) :
    deleteRecLoop (canonicalListStore keys) bucket pfxS (fuel + 1)
        (if n = 0 then none else some (pageToken n)) accDel accErr calls =
      some (calls ++ [ListDelCall.listObjectsV2 bucket (some pfxS)
              (if n = 0 then none else some (pageToken n)) (some 1000)],
            .ok { deleted := accDel, errors := accErr }) := by
  simp only [deleteRecLoop, listObjectsWith, canonical_listResult, listObjects,
    canonicalPage, MAX_KEYS_PER_REQUEST, hempty]
  simp

lemma deleteRecLoop_iter_more (keys : List String) (bucket pfxS : String)
    (fuel n : Nat) (accDel : List String) (accErr : List DeleteError)
    (calls : List ListDelCall)
    (hne : keys.drop (1000 * n) ≠ [])
    (hmore : 1000 * (n + 1) < keys.length) :
    deleteRecLoop (canonicalListStore keys) bucket pfxS (fuel + 1)
        (if n = 0 then none else some (pageToken n)) accDel accErr calls =
      deleteRecLoop (canonicalListStore keys) bucket pfxS fuel
        (some (pageToken (n + 1)))
        (accDel ++ (keys.drop (1000 * n)).take 1000) accErr
        (calls ++ [ListDelCall.listObjectsV2 bucket (some pfxS)
              (if n = 0 then none else some (pageToken n)) (some 1000),
            ListDelCall.deleteObjectsCall bucket ((keys.drop (1000 * n)).take 1000)]) := by
  conv_lhs => rw [deleteRecLoop]
  simp only [listObjectsWith, canonical_listResult, listObjects, MAX_KEYS_PER_REQUEST]
  rw [canonicalPage_objects_ne hne, canonicalPage_objects_keys,
      deleteObjectsOp_canonical _ _ _ (take1000_ne_nil hne)]
  simp [canonicalPage, hmore]

lemma deleteRecLoop_iter_last (keys : List String) (bucket pfxS : String)
    (fuel n : Nat) (accDel : List String) (accErr : List DeleteError)
    (calls : List ListDelCall)
    (hne : keys.drop (1000 * n) ≠ [])
    (hlast : ¬1000 * (n + 1) < keys.length) :
    deleteRecLoop (canonicalListStore keys) bucket pfxS (fuel + 1)
        (if n = 0 then none else some (pageToken n)) accDel accErr calls =
      some (calls ++ [ListDelCall.listObjectsV2 bucket (some pfxS)
              (if n = 0 then none else some (pageToken n)) (some 1000),
            ListDelCall.deleteObjectsCall bucket ((keys.drop (1000 * n)).take 1000)],
            .ok { deleted := accDel ++ (keys.drop (1000 * n)).take 1000
                  errors := accErr }) := by
  conv_lhs => rw [deleteRecLoop]
  simp only [listObjectsWith, canonical_listResult, listObjects, MAX_KEYS_PER_REQUEST]
  rw [canonicalPage_objects_ne hne, canonicalPage_objects_keys,
      deleteObjectsOp_canonical _ _ _ (take1000_ne_nil hne)]
  simp [canonicalPage, hlast]



lemma splitIntoParts_single {α : Type} {P : Nat} {l : List α} (h : l ≠ [])
    (hlen : l.length ≤ P) (hP : 0 < P) : splitIntoParts P l = [l] := by
  rw [splitIntoParts_cons (by push_neg; exact ⟨h, by omega⟩),
      List.take_of_length_le hlen, List.drop_eq_nil_of_le hlen,
      splitIntoParts_base (Or.inl rfl)]

/-- Full characterization of the recursive-delete loop against the
canonical store with sufficient fuel, starting at page `n`. -/
lemma deleteRecLoop_canonical (keys : List String) (bucket pfxS : String) :
    ∀ (fuel n : Nat) (accDel : List String) (accErr : List DeleteError)
      (calls : List ListDelCall),
      (keys.drop (1000 * n)).length + 1 ≤ 1000 * fuel →
      ∃ added,
        deleteRecLoop (canonicalListStore keys) bucket pfxS fuel
            (if n = 0 then none else some (pageToken n)) accDel accErr calls =
          some (calls ++ added,
                .ok { deleted := accDel ++ keys.drop (1000 * n)
                      errors := accErr }) ∧
        listCallCount added =
          max 1 (splitIntoParts 1000 (keys.drop (1000 * n))).length ∧
        deleteCallKeys added = splitIntoParts 1000 (keys.drop (1000 * n)) := by
  intro fuel
  induction fuel with
  | zero => intro n accDel accErr calls hfuel; omega
  | succ fuel ih =>
    intro n accDel accErr calls hfuel
    by_cases hempty : keys.drop (1000 * n) = []
    · refine ⟨[ListDelCall.listObjectsV2 bucket (some pfxS)
          (if n = 0 then none else some (pageToken n)) (some 1000)],
        ?_, ?_, ?_⟩
      · simp [deleteRecLoop_iter_empty keys bucket pfxS fuel n accDel accErr calls hempty,
              hempty]
      · simp [hempty, splitIntoParts_base, listCallCount]
      · simp [hempty, splitIntoParts_base, deleteCallKeys]
    · have hlenpos : 0 < (keys.drop (1000 * n)).length := List.length_pos.mpr hempty
      have hkeyslen : keys.length = 1000 * n + (keys.drop (1000 * n)).length := by
        rw [List.length_drop]
        have : 1000 * n ≤ keys.length := by
          by_contra hc
          push_neg at hc
          exact hempty (List.drop_eq_nil_of_le (le_of_lt hc))
        omega
      by_cases hmore : 1000 * (n + 1) < keys.length
      · -- truncated page: recurse
        have hrems : 1000 < (keys.drop (1000 * n)).length := by omega
        have hdropeq : keys.drop (1000 * (n + 1)) = (keys.drop (1000 * n)).drop 1000 := by
          have harith : 1000 * n + 1000 = 1000 * (n + 1) := by ring
          rw [List.drop_drop, harith]
        have hih := ih (n + 1) (accDel ++ (keys.drop (1000 * n)).take 1000) accErr
          (calls ++ [ListDelCall.listObjectsV2 bucket (some pfxS)
              (if n = 0 then none else some (pageToken n)) (some 1000),
            ListDelCall.deleteObjectsCall bucket ((keys.drop (1000 * n)).take 1000)])
          (by rw [hdropeq, List.length_drop]; omega)
        obtain ⟨added, hrun, hcount, hkeys⟩ := hih
        rw [hdropeq] at hrun hcount hkeys
        rw [if_neg (Nat.succ_ne_zero n)] at hrun
        have hsplit : splitIntoParts 1000 (keys.drop (1000 * n)) =
            (keys.drop (1000 * n)).take 1000 ::
              splitIntoParts 1000 ((keys.drop (1000 * n)).drop 1000) :=
          splitIntoParts_cons (by push_neg; exact ⟨hempty, by omega⟩)
        have hlen' : (splitIntoParts 1000 ((keys.drop (1000 * n)).drop 1000)).length ≥ 1 := by
          have hne' : (keys.drop (1000 * n)).drop 1000 ≠ [] := by
            intro hc
            have := congrArg List.length hc
            simp only [List.length_drop, List.length_nil] at this
            omega
          rw [splitIntoParts_length (by omega)]
          have : 0 < ((keys.drop (1000 * n)).drop 1000).length :=
            List.length_pos.mpr hne'
          rw [List.length_drop] at this ⊢
          omega
        refine ⟨ListDelCall.listObjectsV2 bucket (some pfxS)
            (if n = 0 then none else some (pageToken n)) (some 1000) ::
            ListDelCall.deleteObjectsCall bucket ((keys.drop (1000 * n)).take 1000) ::
            added, ?_, ?_, ?_⟩
        · rw [deleteRecLoop_iter_more keys bucket pfxS fuel n accDel accErr calls hempty hmore,
              hrun]
          rw [show accDel ++ (keys.drop (1000 * n)).take 1000 ++
                (keys.drop (1000 * n)).drop 1000 = accDel ++ keys.drop (1000 * n) from by
            rw [List.append_assoc, List.take_append_drop]]
          simp [List.append_assoc]
        · rw [hsplit]
          have h2 : listCallCount
              (ListDelCall.listObjectsV2 bucket (some pfxS)
                  (if n = 0 then none else some (pageToken n)) (some 1000) ::
                ListDelCall.deleteObjectsCall bucket
                  ((keys.drop (1000 * n)).take 1000) :: added) =
              1 + listCallCount added := by
            show listCallCount
              ([ListDelCall.listObjectsV2 bucket (some pfxS)
                  (if n = 0 then none else some (pageToken n)) (some 1000),
                ListDelCall.deleteObjectsCall bucket
                  ((keys.drop (1000 * n)).take 1000)] ++ added) =
              1 + listCallCount added
            rw [listCallCount_append]
            rfl
          rw [h2, hcount]
          simp only [List.length_cons]
          omega
        · rw [hsplit]
          show deleteCallKeys
              ([ListDelCall.listObjectsV2 bucket (some pfxS)
                  (if n = 0 then none else some (pageToken n)) (some 1000),
                ListDelCall.deleteObjectsCall bucket
                  ((keys.drop (1000 * n)).take 1000)] ++ added) =
            (keys.drop (1000 * n)).take 1000 ::
              splitIntoParts 1000 ((keys.drop (1000 * n)).drop 1000)
          rw [deleteCallKeys_append, hkeys]
          rfl
      · -- final page
        have htakeall : (keys.drop (1000 * n)).take 1000 = keys.drop (1000 * n) :=
          List.take_of_length_le (by omega)
        have hsp : splitIntoParts 1000 (keys.drop (1000 * n)) = [keys.drop (1000 * n)] :=
          splitIntoParts_single hempty (by omega) (by omega)
        refine ⟨[ListDelCall.listObjectsV2 bucket (some pfxS)
            (if n = 0 then none else some (pageToken n)) (some 1000),
          ListDelCall.deleteObjectsCall bucket (keys.drop (1000 * n))], ?_, ?_, ?_⟩
        · rw [deleteRecLoop_iter_last keys bucket pfxS fuel n accDel accErr calls hempty hmore,
              htakeall]
        · rw [hsp]
          rfl
        · rw [hsp]
          rfl


-- ===== Observables of a successful run's call trace =====

lemma partBodies_run_calls (bucket key ct uid : String)
    (parts : List (List Nat)) (cp : List (Nat × String)) :
    partBodies (S3Call.createMultipartUpload bucket key ct ::
      (List.zipWith (fun pn body => S3Call.uploadPart bucket key uid pn body)
        (List.range' 1 parts.length) parts ++
       [S3Call.completeMultipartUpload bucket key uid cp])) = parts := by
  show partBodies ([S3Call.createMultipartUpload bucket key ct] ++
    (List.zipWith (fun pn body => S3Call.uploadPart bucket key uid pn body)
      (List.range' 1 parts.length) parts ++
     [S3Call.completeMultipartUpload bucket key uid cp])) = parts
  rw [partBodies_append, partBodies_append,
      partBodies_zipWith _ _ _ _ _ (by simp [List.length_range'])]
  simp [partBodies]

lemma uploadPartNumbers_run_calls (bucket key ct uid : String)
    (parts : List (List Nat)) (cp : List (Nat × String)) :
    uploadPartNumbers (S3Call.createMultipartUpload bucket key ct ::
      (List.zipWith (fun pn body => S3Call.uploadPart bucket key uid pn body)
        (List.range' 1 parts.length) parts ++
       [S3Call.completeMultipartUpload bucket key uid cp])) =
      List.range' 1 parts.length := by
  show uploadPartNumbers ([S3Call.createMultipartUpload bucket key ct] ++
    (List.zipWith (fun pn body => S3Call.uploadPart bucket key uid pn body)
      (List.range' 1 parts.length) parts ++
     [S3Call.completeMultipartUpload bucket key uid cp])) = List.range' 1 parts.length
  rw [uploadPartNumbers_append, uploadPartNumbers_append,
      uploadPartNumbers_zipWith _ _ _ _ _ (by simp [List.length_range'])]
  simp [uploadPartNumbers]

lemma completeCallArgs_run_calls (bucket key ct uid : String)
    (parts : List (List Nat)) (cp : List (Nat × String)) :
    completeCallArgs (S3Call.createMultipartUpload bucket key ct ::
      (List.zipWith (fun pn body => S3Call.uploadPart bucket key uid pn body)
        (List.range' 1 parts.length) parts ++
       [S3Call.completeMultipartUpload bucket key uid cp])) = [cp] := by
  show completeCallArgs ([S3Call.createMultipartUpload bucket key ct] ++
    (List.zipWith (fun pn body => S3Call.uploadPart bucket key uid pn body)
      (List.range' 1 parts.length) parts ++
     [S3Call.completeMultipartUpload bucket key uid cp])) = [cp]
  rw [completeCallArgs_append, completeCallArgs_append, completeCallArgs_uploadParts]
  simp [completeCallArgs]

/-- All slices produced by `splitIntoParts` have length at most `P`. -/
lemma splitIntoParts_sizes {α : Type} {P : Nat} (hP : 0 < P) (l : List α) :
    ∀ b ∈ splitIntoParts P l, b.length ≤ P := by
  by_cases hl : l = []
  · subst hl
    simp [splitIntoParts_base (Or.inl rfl)]
  · obtain ⟨parts, lastPart, heq, hall, hlast⟩ := splitIntoParts_last_spec hP l hl
    rw [heq]
    intro b hb
    rcases List.mem_append.mp hb with hb | hb
    · exact le_of_eq (hall b hb)
    · have : b = lastPart := by simpa using hb
      subst this
      rw [hlast]
      by_cases hmod : l.length % P = 0
      · simp [hmod]
      · simp only [hmod, if_false]
        exact le_of_lt (Nat.mod_lt _ hP)

/-- The events a progress receiver actually observes when it is dropped
after consuming `closedAfter` events: later sends hit a closed channel and
their errors are discarded by the sender (`let _ = sender.send(..)`). -/
def deliveredEvents (closedAfter : Nat) (sent : List UploadProgress) :
    List UploadProgress :=
  sent.take closedAfter

-- ===== Claim theorems =====

/-- C10: `download_object` and `head_object` map every failure of the
underlying store call — transport errors and store-side errors alike — to
`ObjectNotFound("{bucket}/{key}")`; no such failure surfaces as any other
error kind (in particular not as an internal/remote error). -/
theorem C10_fetch_failures_are_ObjectNotFound (bucket key e : String) :
    downloadObject bucket key (.error e) =
      .error (.ObjectNotFound (bucket ++ "/" ++ key)) ∧
    headObject bucket key (.error e) =
      .error (.ObjectNotFound (bucket ++ "/" ++ key)) :=
  ⟨rfl, rfl⟩

/-- C7 counterexample: a store response with `is_truncated = true` and no
continuation token — violating `is_truncated == token.is_some()` — is
returned to the caller as a well-formed page, so the implementation does
not verify the contract. -/
theorem C7_counterexample :
    listObjects (.ok { contents := [], nextContinuationToken := none
                       isTruncated := some true, pfx := none }) =
      .ok { objects := [], nextContinuationToken := none
            isTruncated := true, pfx := none } ∧
    ¬((true : Bool) = (none : Option String).isSome) := by
  exact ⟨rfl, by decide⟩

/-- C7 (amended): `list_objects` copies `is_truncated` (defaulting to
`false`) and `next_continuation_token` independently out of the store
response without any cross-check, so the invariant
`is_truncated == next_continuation_token.is_some()` holds for the returned
page exactly when the store response already satisfied it — it is assumed,
not verified. -/
theorem C7_truncation_flag_passthrough (r : RawListResponse) :
    ∃ page, listObjects (.ok r) = .ok page ∧
      page.isTruncated = r.isTruncated.getD false ∧
      page.nextContinuationToken = r.nextContinuationToken ∧
      ((page.isTruncated = page.nextContinuationToken.isSome) ↔
        (r.isTruncated.getD false = r.nextContinuationToken.isSome)) :=
  ⟨_, rfl, rfl, rfl, Iff.rfl⟩

/-- C5 counterexample: a zero-length upload returns to the caller exactly
one stream message, and it is an `Initiated` with the synthetic upload id
`"folder_upload"` — not a final `UploadResult` as the claim states. -/
theorem C5_counterexample :
    grpcUploadObject okStore
        { bucket := "b", key := "k", contentType := "ct", contentLength := 0 } [] =
      ([S3Call.putObject "b" "k" "ct" (some 0) []],
       .ok [.ok (.Initiated "folder_upload" "b" "k")]) := by
  rfl

/-- C5 (amended): when the declared `content_length` is zero the handler
performs exactly one simple `PutObject` upload of a zero-byte body and
issues no multipart call at all, and the caller's stream holds exactly one
message: an `Initiated` response with upload id `"folder_upload"` (no
progress messages and no final `UploadResult` message). -/
theorem C5_zero_length_bypass (store : StoreModel) (meta : UploadMetadataMsg)
    (chunks : List (Except String (List Nat))) (po : Option String)
    (h0 : meta.contentLength = 0) (hput : store.putResult = .ok po) :
    grpcUploadObject store meta chunks =
      ([S3Call.putObject meta.bucket meta.key meta.contentType (some 0) []],
       .ok [.ok (.Initiated "folder_upload" meta.bucket meta.key)]) ∧
    ∀ c ∈ (grpcUploadObject store meta chunks).1, isMultipartCall c = false := by
  have h : grpcUploadObject store meta chunks =
      ([S3Call.putObject meta.bucket meta.key meta.contentType (some 0) []],
       .ok [.ok (.Initiated "folder_upload" meta.bucket meta.key)]) := by
    simp [grpcUploadObject, h0, uploadObject, hput]
  refine ⟨h, ?_⟩
  rw [h]
  intro c hc
  simp only [List.mem_singleton] at hc
  subst hc
  rfl

/-- C5 witness. -/
theorem C5_zero_length_bypass_witness :
    grpcUploadObject okStore
        { bucket := "b", key := "k", contentType := "ct", contentLength := 0 } [] =
      ([S3Call.putObject "b" "k" "ct" (some 0) []],
       .ok [.ok (.Initiated "folder_upload" "b" "k")]) ∧
    ∀ c ∈ (grpcUploadObject okStore
        { bucket := "b", key := "k", contentType := "ct", contentLength := 0 } []).1,
      isMultipartCall c = false :=
  C5_zero_length_bypass okStore
    { bucket := "b", key := "k", contentType := "ct", contentLength := 0 } []
    (some "put-etag") rfl rfl

/-- C8: the upload's result and its S3 call trace are identical whatever
progress sink is supplied (closed, dropped, or absent) — the source never
reads a send's outcome — and a sink closed from the start delivers no
event.  In particular the upload returns exactly what it would return with
no sink. -/
theorem C8_progress_sink_best_effort (store : StoreModel)
    (bucket key contentType : String) (contentLength : Option Int)
    (chunks : List (Except String (List Nat))) (partSizeArg : Option Nat) :
    (∀ s1 s2 : Option Unit,
      (uploadObjectMultipart store bucket key contentType contentLength chunks
          partSizeArg s1).1 =
        (uploadObjectMultipart store bucket key contentType contentLength chunks
          partSizeArg s2).1 ∧
      (uploadObjectMultipart store bucket key contentType contentLength chunks
          partSizeArg s1).2.1 =
        (uploadObjectMultipart store bucket key contentType contentLength chunks
          partSizeArg s2).2.1) ∧
    deliveredEvents 0
      (uploadObjectMultipart store bucket key contentType contentLength chunks
        partSizeArg (some ())).2.2 = [] := by
  refine ⟨fun s1 s2 => ?_, rfl⟩
  have h := uploadObjectMultipart_sender_agnostic store bucket key contentType
    contentLength chunks partSizeArg s1 s2
  exact ⟨by simpa using congrArg Prod.fst h, by simpa using congrArg Prod.snd h⟩



/-- In a successful run the bodies of the `UploadPart` calls are exactly
the canonical `P`-sized splitting of the concatenated input bytes. -/
lemma partBodies_of_run (store : StoreModel) (bucket key contentType : String)
    (contentLength : Option Int) (sender : Option Unit) {uid : String}
    {co : Option String} (hcreate : store.createResult = .ok (some uid))
    (hpart : PartsOk store) (hcomplete : store.completeResult = .ok co)
    {P : Nat} (hP : 0 < P) (datas : List (List Nat)) :
    partBodies (uploadObjectMultipart store bucket key contentType contentLength
        (datas.map .ok) (some P) sender).2.1 = splitIntoParts P datas.flatten := by
  rw [uploadObjectMultipart_run store bucket key contentType contentLength sender
      hcreate hpart hcomplete hP datas]
  show partBodies (S3Call.createMultipartUpload bucket key contentType ::
      (List.zipWith (fun pn body => S3Call.uploadPart bucket key uid pn body)
        (List.range' 1 (runParts P datas).length) (runParts P datas) ++
       [S3Call.completeMultipartUpload bucket key uid
         ((List.range' 1 (runParts P datas).length).map
           (fun pn => (pn, partETag store pn)))])) = splitIntoParts P datas.flatten
  rw [partBodies_run_calls]
  exact runParts_eq_splitIntoParts hP datas

/-- C2: for every chunk sequence with total length `N` and positive part
size `P`, a successful multipart run uploads exactly `⌈N/P⌉` parts (0 when
`N = 0`); every part except the last has length exactly `P`, the last has
length `N mod P` (or `P` when `N` is a positive exact multiple of `P`),
and concatenating the uploaded parts in emission order restores the input
byte sequence. -/
theorem C2_part_assembler (store : StoreModel) (bucket key contentType : String)
    (contentLength : Option Int) (sender : Option Unit) (uid : String)
    (co : Option String) (P : Nat) (datas : List (List Nat))
    (hcreate : store.createResult = .ok (some uid)) (hpart : PartsOk store)
    (hcomplete : store.completeResult = .ok co) (hP : 0 < P) :
    (partBodies (uploadObjectMultipart store bucket key contentType contentLength
        (datas.map .ok) (some P) sender).2.1).length =
      (datas.flatten.length + P - 1) / P ∧
    (∀ p ∈ (partBodies (uploadObjectMultipart store bucket key contentType contentLength
        (datas.map .ok) (some P) sender).2.1).dropLast, p.length = P) ∧
    (∀ lastPart, (partBodies (uploadObjectMultipart store bucket key contentType
        contentLength (datas.map .ok) (some P) sender).2.1).getLast? = some lastPart →
      lastPart.length =
        if datas.flatten.length % P = 0 then P else datas.flatten.length % P) ∧
    (partBodies (uploadObjectMultipart store bucket key contentType contentLength
        (datas.map .ok) (some P) sender).2.1).flatten = datas.flatten := by
  rw [partBodies_of_run store bucket key contentType contentLength sender
      hcreate hpart hcomplete hP datas]
  refine ⟨splitIntoParts_length hP _, ?_, ?_, splitIntoParts_flatten hP _⟩
  · by_cases hnil : datas.flatten = []
    · rw [hnil, splitIntoParts_base (Or.inl rfl)]
      simp
    · obtain ⟨parts, lastPart, heq, hall, hlast⟩ := splitIntoParts_last_spec hP _ hnil
      rw [heq, List.dropLast_concat]
      exact hall
  · intro lp hlp
    by_cases hnil : datas.flatten = []
    · rw [hnil, splitIntoParts_base (Or.inl rfl)] at hlp
      simp at hlp
    · obtain ⟨parts, lastPart, heq, hall, hlast⟩ := splitIntoParts_last_spec hP _ hnil
      rw [heq, List.getLast?_concat] at hlp
      cases hlp
      exact hlast

/-- C2 witness: the C2 theorem at a concrete store, `P = 3` and chunk
sizes 2, 4, 1. -/
theorem C2_part_assembler_witness :
    (partBodies (uploadObjectMultipart okStore "b" "k" "ct" (some 7)
        ([[1, 2], [3, 4, 5, 6], [7]].map .ok) (some 3) (some ())).2.1).length =
      (([[1, 2], [3, 4, 5, 6], [7]] : List (List Nat)).flatten.length + 3 - 1) / 3 ∧
    (∀ p ∈ (partBodies (uploadObjectMultipart okStore "b" "k" "ct" (some 7)
        ([[1, 2], [3, 4, 5, 6], [7]].map .ok) (some 3) (some ())).2.1).dropLast,
      p.length = 3) ∧
    (∀ lastPart, (partBodies (uploadObjectMultipart okStore "b" "k" "ct" (some 7)
        ([[1, 2], [3, 4, 5, 6], [7]].map .ok) (some 3) (some ())).2.1).getLast? =
          some lastPart →
      lastPart.length =
        if ([[1, 2], [3, 4, 5, 6], [7]] : List (List Nat)).flatten.length % 3 = 0
        then 3 else ([[1, 2], [3, 4, 5, 6], [7]] : List (List Nat)).flatten.length % 3) ∧
    (partBodies (uploadObjectMultipart okStore "b" "k" "ct" (some 7)
        ([[1, 2], [3, 4, 5, 6], [7]].map .ok) (some 3) (some ())).2.1).flatten =
      ([[1, 2], [3, 4, 5, 6], [7]] : List (List Nat)).flatten :=
  C2_part_assembler okStore "b" "k" "ct" (some 7) (some ()) "uid-1"
    (some "final-etag") 3 [[1, 2], [3, 4, 5, 6], [7]] rfl
    (fun pn => ⟨some ("etag-" ++ toString pn), rfl⟩) rfl (by norm_num)

/-- C3: in every successful multipart run (create, parts and complete all
succeeding, at least one byte uploaded) the `part_number` values of the
`UploadPart` calls, in trace order, are exactly `1, 2, …, k` for some
`k ≥ 1` — no gaps, no repeats (the embedding issues them strictly
sequentially, each call after the previous one returned) — and the single
`CompleteMultipartUpload` call carries exactly the `(part_number, etag)`
pairs of those `k` parts, in the same order, with each etag the one the
store returned for that part. -/
theorem C3_part_numbering (store : StoreModel) (bucket key contentType : String)
    (contentLength : Option Int) (sender : Option Unit) (uid : String)
    (co : Option String) (P : Nat) (datas : List (List Nat))
    (hcreate : store.createResult = .ok (some uid)) (hpart : PartsOk store)
    (hcomplete : store.completeResult = .ok co) (hP : 0 < P)
    (hne : datas.flatten ≠ []) :
    ∃ k : Nat, 1 ≤ k ∧
      uploadPartNumbers (uploadObjectMultipart store bucket key contentType
        contentLength (datas.map .ok) (some P) sender).2.1 = List.range' 1 k ∧
      completeCallArgs (uploadObjectMultipart store bucket key contentType
        contentLength (datas.map .ok) (some P) sender).2.1 =
        [(List.range' 1 k).map (fun pn => (pn, partETag store pn))] := by
  refine ⟨(runParts P datas).length, ?_, ?_, ?_⟩
  · rw [runParts_eq_splitIntoParts hP, splitIntoParts_length hP]
    have h0 : 0 < datas.flatten.length := List.length_pos.mpr hne
    have : P ≤ datas.flatten.length + P - 1 := by omega
    rw [Nat.le_div_iff_mul_le hP]
    omega
  · rw [uploadObjectMultipart_run store bucket key contentType contentLength sender
        hcreate hpart hcomplete hP datas]
    exact uploadPartNumbers_run_calls bucket key contentType uid (runParts P datas) _
  · rw [uploadObjectMultipart_run store bucket key contentType contentLength sender
        hcreate hpart hcomplete hP datas]
    exact completeCallArgs_run_calls bucket key contentType uid (runParts P datas) _

/-- C3 witness: the C3 theorem at a concrete store, `P = 3` and chunk
sizes 2, 4, 1 (k = 3). -/
theorem C3_part_numbering_witness :
    ∃ k : Nat, 1 ≤ k ∧
      uploadPartNumbers (uploadObjectMultipart okStore "b" "k" "ct" (some 7)
        ([[1, 2], [3, 4, 5, 6], [7]].map .ok) (some 3) (some ())).2.1 =
        List.range' 1 k ∧
      completeCallArgs (uploadObjectMultipart okStore "b" "k" "ct" (some 7)
        ([[1, 2], [3, 4, 5, 6], [7]].map .ok) (some 3) (some ())).2.1 =
        [(List.range' 1 k).map (fun pn => (pn, partETag okStore pn))] :=
  C3_part_numbering okStore "b" "k" "ct" (some 7) (some ()) "uid-1"
    (some "final-etag") 3 [[1, 2], [3, 4, 5, 6], [7]] rfl
    (fun pn => ⟨some ("etag-" ++ toString pn), rfl⟩) rfl (by norm_num) (by decide)




lemma putBodies_append (xs ys : List S3Call) :
    putBodies (xs ++ ys) = putBodies xs ++ putBodies ys := by
  simp [putBodies]

/-- The drain loop only appends `UploadPart` calls to the trace. -/
lemma drainLoop_calls_ext (store : StoreModel) (bucket key uploadId : String)
    (partSize : Nat) (contentLength : Option Int) (sender : Option Unit)
    (st : MpState) :
    ∃ ext, (drainLoop store bucket key uploadId partSize contentLength
        sender st).state.calls = st.calls ++ ext ∧ putBodies ext = [] := by
  generalize hn : st.buffer.length = n
  induction n using Nat.strong_induction_on generalizing st with
  | _ n ih =>
    subst hn
    by_cases h : 0 < partSize ∧ partSize ≤ st.buffer.length
    · cases he : store.uploadPartResult st.partNumber with
      | error e =>
          rw [drainLoop_step_err h he]
          exact ⟨_, rfl, rfl⟩
      | ok o =>
          rw [drainLoop_step_ok h he]
          obtain ⟨ext, hext, hput⟩ := ih ((st.buffer.drop partSize).length)
            (by simp [List.length_drop]; omega)
            { completedParts := st.completedParts ++ [(st.partNumber, o.getD "")]
              partNumber := st.partNumber + 1
              buffer := st.buffer.drop partSize
              totalSize := st.totalSize
              calls := st.calls ++ [S3Call.uploadPart bucket key uploadId
                st.partNumber (st.buffer.take partSize)]
              sent := sendProgress sender st.sent
                (.PartUploaded st.partNumber st.totalSize (contentLength.getD 0)) }
            rfl
          refine ⟨[S3Call.uploadPart bucket key uploadId st.partNumber
              (st.buffer.take partSize)] ++ ext, ?_, ?_⟩
          · rw [hext]
            simp [List.append_assoc]
          · rw [putBodies_append, hput]
            rfl
    · rw [drainLoop_stop h]
      exact ⟨[], by simp [PhaseOutcome.state], rfl⟩

/-- The chunk loop (any chunk stream) only appends `UploadPart` and
`AbortMultipartUpload` calls to the trace. -/
lemma chunkLoop_calls_ext (store : StoreModel) (bucket key uploadId : String)
    (partSize : Nat) (contentLength : Option Int) (sender : Option Unit)
    (chunks : List (Except String (List Nat))) (st : MpState) :
    ∃ ext, (chunkLoop store bucket key uploadId partSize contentLength
        sender chunks st).state.calls = st.calls ++ ext ∧ putBodies ext = [] := by
  induction chunks generalizing st with
  | nil => exact ⟨[], by simp [chunkLoop, PhaseOutcome.state], rfl⟩
  | cons c rest ih =>
    cases c with
    | error e =>
        refine ⟨[S3Call.abortMultipartUpload bucket key uploadId], ?_, rfl⟩
        simp [chunkLoop, PhaseOutcome.state]
    | ok chunk =>
        simp only [chunkLoop]
        obtain ⟨ext1, hext1, hput1⟩ := drainLoop_calls_ext store bucket key uploadId
          partSize contentLength sender
          { st with buffer := st.buffer ++ chunk
                    totalSize := st.totalSize + (chunk.length : Int) }
        cases hdr : drainLoop store bucket key uploadId partSize contentLength sender
            { st with buffer := st.buffer ++ chunk
                      totalSize := st.totalSize + (chunk.length : Int) } with
        | ok st'' =>
            rw [hdr] at hext1
            obtain ⟨ext2, hext2, hput2⟩ := ih st''
            refine ⟨ext1 ++ ext2, ?_, ?_⟩
            · rw [hext2]
              simp only [PhaseOutcome.state] at hext1
              rw [hext1, List.append_assoc]
            · rw [putBodies_append, hput1, hput2]
              rfl
        | chunkFail st'' m =>
            rw [hdr] at hext1
            exact ⟨ext1, hext1, hput1⟩
        | remoteFail st'' m =>
            rw [hdr] at hext1
            exact ⟨ext1, hext1, hput1⟩

/-- The final-part step only appends an `UploadPart` call to the trace. -/
lemma finalPart_calls_ext (store : StoreModel) (bucket key uploadId : String)
    (contentLength : Option Int) (sender : Option Unit) (st : MpState) :
    ∃ ext, (finalPart store bucket key uploadId contentLength
        sender st).state.calls = st.calls ++ ext ∧ putBodies ext = [] := by
  by_cases hb : st.buffer.isEmpty
  · exact ⟨[], by simp [finalPart, hb, PhaseOutcome.state], rfl⟩
  · cases he : store.uploadPartResult st.partNumber with
    | error e =>
        refine ⟨[S3Call.uploadPart bucket key uploadId st.partNumber st.buffer], ?_, rfl⟩
        simp [finalPart, hb, he, PhaseOutcome.state]
    | ok o =>
        refine ⟨[S3Call.uploadPart bucket key uploadId st.partNumber st.buffer], ?_, rfl⟩
        simp [finalPart, hb, he, PhaseOutcome.state]

/-- Every invocation of `upload_object_multipart` puts
`CreateMultipartUpload` first in its trace (before any chunk is read), and
the trace never contains a `PutObject` call. -/
lemma uploadObjectMultipart_calls_shape (store : StoreModel)
    (bucket key contentType : String) (contentLength : Option Int)
    (chunks : List (Except String (List Nat))) (partSizeArg : Option Nat)
    (sender : Option Unit) :
    (uploadObjectMultipart store bucket key contentType contentLength chunks
        partSizeArg sender).2.1.head? =
      some (.createMultipartUpload bucket key contentType) ∧
    putBodies (uploadObjectMultipart store bucket key contentType contentLength
        chunks partSizeArg sender).2.1 = [] := by
  unfold uploadObjectMultipart
  cases hc : store.createResult with
  | error e => exact ⟨rfl, rfl⟩
  | ok o =>
    cases o with
    | none => exact ⟨rfl, rfl⟩
    | some uid =>
      simp only []
      obtain ⟨ext1, hext1, hput1⟩ := chunkLoop_calls_ext store bucket key uid
        (partSizeArg.getD (5 * 1024 * 1024)) contentLength sender chunks
        { completedParts := [], partNumber := 1, buffer := [], totalSize := 0
          calls := [S3Call.createMultipartUpload bucket key contentType]
          sent := sendProgress sender [] (.Initiated uid bucket key) }
      cases h1 : chunkLoop store bucket key uid (partSizeArg.getD (5 * 1024 * 1024))
          contentLength sender chunks
          { completedParts := [], partNumber := 1, buffer := [], totalSize := 0
            calls := [S3Call.createMultipartUpload bucket key contentType]
            sent := sendProgress sender [] (.Initiated uid bucket key) } with
      | chunkFail stA m =>
          rw [h1] at hext1
          simp only [PhaseOutcome.state] at hext1
          simp only [h1]
          rw [hext1]
          exact ⟨rfl, by rw [putBodies_append, hput1]; rfl⟩
      | remoteFail stA m =>
          rw [h1] at hext1
          simp only [PhaseOutcome.state] at hext1
          simp only [h1]
          rw [hext1]
          exact ⟨rfl, by rw [putBodies_append, hput1]; rfl⟩
      | ok stA =>
          rw [h1] at hext1
          simp only [PhaseOutcome.state] at hext1
          simp only [h1]
          obtain ⟨ext2, hext2, hput2⟩ := finalPart_calls_ext store bucket key uid
            contentLength sender stA
          cases h2 : finalPart store bucket key uid contentLength sender stA with
          | chunkFail stB m =>
              rw [h2] at hext2
              simp only [PhaseOutcome.state] at hext2
              simp only [h2]
              rw [hext2, hext1]
              refine ⟨rfl, ?_⟩
              rw [List.append_assoc, putBodies_append, putBodies_append, hput1, hput2]
              rfl
          | remoteFail stB m =>
              rw [h2] at hext2
              simp only [PhaseOutcome.state] at hext2
              simp only [h2]
              rw [hext2, hext1]
              refine ⟨rfl, ?_⟩
              rw [List.append_assoc, putBodies_append, putBodies_append, hput1, hput2]
              rfl
          | ok stB =>
              rw [h2] at hext2
              simp only [PhaseOutcome.state] at hext2
              simp only [h2]
              cases hcomp : store.completeResult with
              | error e =>
                  simp only [hcomp]
                  rw [hext2, hext1]
                  refine ⟨rfl, ?_⟩
                  rw [List.append_assoc, List.append_assoc, putBodies_append,
                      putBodies_append, putBodies_append, hput1, hput2]
                  rfl
              | ok etagOpt =>
                  simp only [hcomp]
                  rw [hext2, hext1]
                  refine ⟨rfl, ?_⟩
                  rw [List.append_assoc, List.append_assoc, putBodies_append,
                      putBodies_append, putBodies_append, hput1, hput2]
                  rfl



/-- C9: `upload_object_multipart` performs no zero-length check — every
invocation's trace begins with `CreateMultipartUpload` (before any chunk
is read) and never contains a simple `PutObject`; when the chunk source
closes after zero total bytes (store succeeding) it issues
`CompleteMultipartUpload` with an empty part list and returns an
`UploadResult` of size 0.  The zero-byte simple-upload bypass lives only
in the gRPC handler and fires exactly when the declared `content_length`
is 0: then one `PutObject` of an empty body and no multipart call; for any
other declared length the handler goes straight to multipart. -/
theorem C9_zero_length_handling :
    (∀ (store : StoreModel) (bucket key contentType : String)
       (contentLength : Option Int) (chunks : List (Except String (List Nat)))
       (partSizeArg : Option Nat) (sender : Option Unit),
       (uploadObjectMultipart store bucket key contentType contentLength chunks
           partSizeArg sender).2.1.head? =
         some (.createMultipartUpload bucket key contentType) ∧
       putBodies (uploadObjectMultipart store bucket key contentType contentLength
           chunks partSizeArg sender).2.1 = []) ∧
    (∀ (store : StoreModel) (bucket key contentType : String)
       (contentLength : Option Int) (sender : Option Unit) (uid : String)
       (co : Option String) (P : Nat) (datas : List (List Nat)),
       store.createResult = .ok (some uid) → PartsOk store →
       store.completeResult = .ok co → 0 < P → datas.flatten = [] →
       (uploadObjectMultipart store bucket key contentType contentLength
           (datas.map .ok) (some P) sender).1 =
         .ok { bucket := bucket, key := key
               etag := trimQuotes (co.getD ""), size := 0 } ∧
       completeCallArgs (uploadObjectMultipart store bucket key contentType
           contentLength (datas.map .ok) (some P) sender).2.1 = [[]] ∧
       uploadPartNumbers (uploadObjectMultipart store bucket key contentType
           contentLength (datas.map .ok) (some P) sender).2.1 = []) ∧
    (∀ (store : StoreModel) (meta : UploadMetadataMsg)
       (chunks : List (Except String (List Nat))),
       (meta.contentLength = 0 →
         putBodies (grpcUploadObject store meta chunks).1 = [[]] ∧
         ∀ c ∈ (grpcUploadObject store meta chunks).1, isMultipartCall c = false) ∧
       (meta.contentLength ≠ 0 →
         putBodies (grpcUploadObject store meta chunks).1 = [] ∧
         (grpcUploadObject store meta chunks).1.head? =
           some (.createMultipartUpload meta.bucket meta.key meta.contentType))) := by
  refine ⟨fun store b k ct cl chunks psz sender =>
      uploadObjectMultipart_calls_shape store b k ct cl chunks psz sender,
    fun store b k ct cl sender uid co P datas hcreate hpart hcomplete hP hflat => ?_,
    fun store meta chunks => ⟨fun h0 => ?_, fun hne => ?_⟩⟩
  · have hspec := (assembleFrom_spec hP datas [] (by simpa using hP)).1
    rw [List.nil_append, hflat, splitIntoParts_base (Or.inl rfl)] at hspec
    have h1 : (assembleFrom P [] datas).1 = [] := (List.append_eq_nil.mp hspec).1
    have h2if := (List.append_eq_nil.mp hspec).2
    have h2 : (assembleFrom P [] datas).2.isEmpty = true := by
      by_cases hx : (assembleFrom P [] datas).2.isEmpty
      · exact hx
      · rw [if_neg hx] at h2if
        simp at h2if
    have hrp : runParts P datas = [] := by
      rw [runParts, h1, h2]
      rfl
    refine ⟨?_, ?_, ?_⟩
    · rw [uploadObjectMultipart_run store b k ct cl sender hcreate hpart hcomplete hP datas]
      simp [hflat]
    · rw [uploadObjectMultipart_run store b k ct cl sender hcreate hpart hcomplete hP datas]
      have := completeCallArgs_run_calls b k ct uid (runParts P datas)
        ((List.range' 1 (runParts P datas).length).map (fun pn => (pn, partETag store pn)))
      rw [this, hrp]
      rfl
    · rw [uploadObjectMultipart_run store b k ct cl sender hcreate hpart hcomplete hP datas]
      have := uploadPartNumbers_run_calls b k ct uid (runParts P datas)
        ((List.range' 1 (runParts P datas).length).map (fun pn => (pn, partETag store pn)))
      rw [this, hrp]
      rfl
  · have hcalls : (grpcUploadObject store meta chunks).1 =
        [S3Call.putObject meta.bucket meta.key meta.contentType (some 0) []] := by
      rw [grpcUploadObject, if_pos h0]
      cases hp : store.putResult <;> simp [uploadObject, hp]
    rw [hcalls]
    exact ⟨rfl, by
      intro c hc
      simp only [List.mem_singleton] at hc
      subst hc
      rfl⟩
  · rw [show (grpcUploadObject store meta chunks).1 =
        (uploadObjectMultipart store meta.bucket meta.key meta.contentType
          (some meta.contentLength) chunks none (some ())).2.1 from by
      rw [grpcUploadObject, if_neg hne]]
    exact ⟨(uploadObjectMultipart_calls_shape store meta.bucket meta.key
        meta.contentType (some meta.contentLength) chunks none (some ())).2,
      (uploadObjectMultipart_calls_shape store meta.bucket meta.key
        meta.contentType (some meta.contentLength) chunks none (some ())).1⟩



/-- C9 witness: the C9 theorem instantiated at a concrete store, a
zero-byte chunk stream, and a zero-length gRPC metadata message. -/
theorem C9_zero_length_handling_witness :
    ((uploadObjectMultipart okStore "b" "k" "ct" none ([[]].map .ok)
        (some 1) (some ())).1 =
      .ok { bucket := "b", key := "k"
            etag := trimQuotes ((some "final-etag").getD ""), size := 0 } ∧
     completeCallArgs (uploadObjectMultipart okStore "b" "k" "ct" none
        ([[]].map .ok) (some 1) (some ())).2.1 = [[]] ∧
     uploadPartNumbers (uploadObjectMultipart okStore "b" "k" "ct" none
        ([[]].map .ok) (some 1) (some ())).2.1 = []) ∧
    (putBodies (grpcUploadObject okStore
        { bucket := "b", key := "k", contentType := "ct", contentLength := 0 } []).1 =
      [[]] ∧
     ∀ c ∈ (grpcUploadObject okStore
        { bucket := "b", key := "k", contentType := "ct", contentLength := 0 } []).1,
       isMultipartCall c = false) :=
  ⟨C9_zero_length_handling.2.1 okStore "b" "k" "ct" none (some ()) "uid-1"
      (some "final-etag") 1 [[]] rfl
      (fun pn => ⟨some ("etag-" ++ toString pn), rfl⟩) rfl (by norm_num) rfl,
   (C9_zero_length_handling.2.2 okStore
      { bucket := "b", key := "k", contentType := "ct", contentLength := 0 } []).1 rfl⟩

/-- A store whose part uploads always fail. -/
def partFailStore : StoreModel :=
  { okStore with uploadPartResult := fun _ => .error "part failed" }

lemma abortCallIds_chunkErr_calls (bucket key ct uid : String)
    (pns : List Nat) (parts : List (List Nat)) :
    abortCallIds ((S3Call.createMultipartUpload bucket key ct ::
        List.zipWith (fun pn body => S3Call.uploadPart bucket key uid pn body)
          pns parts) ++
      [S3Call.abortMultipartUpload bucket key uid]) = [uid] := by
  rw [abortCallIds_append,
      show (S3Call.createMultipartUpload bucket key ct ::
        List.zipWith (fun pn body => S3Call.uploadPart bucket key uid pn body)
          pns parts) =
        [S3Call.createMultipartUpload bucket key ct] ++
          List.zipWith (fun pn body => S3Call.uploadPart bucket key uid pn body)
            pns parts from rfl,
      abortCallIds_append, abortCallIds_uploadParts]
  rfl

lemma completeCallArgs_chunkErr_calls (bucket key ct uid : String)
    (pns : List Nat) (parts : List (List Nat)) :
    completeCallArgs ((S3Call.createMultipartUpload bucket key ct ::
        List.zipWith (fun pn body => S3Call.uploadPart bucket key uid pn body)
          pns parts) ++
      [S3Call.abortMultipartUpload bucket key uid]) = [] := by
  rw [completeCallArgs_append,
      show (S3Call.createMultipartUpload bucket key ct ::
        List.zipWith (fun pn body => S3Call.uploadPart bucket key uid pn body)
          pns parts) =
        [S3Call.createMultipartUpload bucket key ct] ++
          List.zipWith (fun pn body => S3Call.uploadPart bucket key uid pn body)
            pns parts from rfl,
      completeCallArgs_append, completeCallArgs_uploadParts]
  rfl

/-- C1 counterexample: a multipart upload in which a remote `UploadPart`
call fails (a failure the claim covers) returns an error but issues NO
`AbortMultipartUpload` call — the abort exists only on the chunk-source
error path, so the claim as stated is false. -/
theorem C1_counterexample :
    (uploadObjectMultipart partFailStore "b" "k" "ct" none [.ok [42]]
        (some 1) (some ())).1 = .error (.InternalError "part failed") ∧
    abortCallIds (uploadObjectMultipart partFailStore "b" "k" "ct" none
        [.ok [42]] (some 1) (some ())).2.1 = [] := by
  have h := @uploadObjectMultipart_part1_fail partFailStore "b" "k" "ct" none
    (some ()) "uid-1" "part failed" rfl rfl 1 (by norm_num) [[42]] (by decide)
  exact ⟨h.1, h.2.2⟩

/-- C1 (amended): (1) on a chunk-source error (store create and part
uploads succeeding) the upload issues exactly one
`AbortMultipartUpload` for the session's upload id, never issues
`CompleteMultipartUpload`, and returns the original chunk error — the
result does not depend on `store.abortResult`, which the statement leaves
fully unconstrained, so the abort call's own failure is swallowed; (2) on
a chunk stream without source errors no abort is ever issued, whatever the
store answers; (3) a remote `UploadPart` failure (here: on the first part)
propagates as the original error with neither Complete nor Abort
issued. -/
theorem C1_failure_handling :
    (∀ (store : StoreModel) (bucket key contentType : String)
       (contentLength : Option Int) (sender : Option Unit) (uid : String)
       (P : Nat) (good : List (List Nat)) (msg : String)
       (rest : List (Except String (List Nat))),
       store.createResult = .ok (some uid) → PartsOk store → 0 < P →
       (uploadObjectMultipart store bucket key contentType contentLength
           (good.map .ok ++ .error msg :: rest) (some P) sender).1 =
         .error (.InternalError ("Chunk error: " ++ msg)) ∧
       abortCallIds (uploadObjectMultipart store bucket key contentType
           contentLength (good.map .ok ++ .error msg :: rest) (some P) sender).2.1 =
         [uid] ∧
       completeCallArgs (uploadObjectMultipart store bucket key contentType
           contentLength (good.map .ok ++ .error msg :: rest) (some P) sender).2.1 =
         []) ∧
    (∀ (store : StoreModel) (bucket key contentType : String)
       (contentLength : Option Int) (datas : List (List Nat))
       (partSizeArg : Option Nat) (sender : Option Unit),
       abortCallIds (uploadObjectMultipart store bucket key contentType
           contentLength (datas.map .ok) partSizeArg sender).2.1 = []) ∧
    (∀ (store : StoreModel) (bucket key contentType : String)
       (contentLength : Option Int) (sender : Option Unit) (uid m : String)
       (P : Nat) (datas : List (List Nat)),
       store.createResult = .ok (some uid) →
       store.uploadPartResult 1 = .error m → 0 < P → datas.flatten ≠ [] →
       (uploadObjectMultipart store bucket key contentType contentLength
           (datas.map .ok) (some P) sender).1 = .error (.InternalError m) ∧
       completeCallArgs (uploadObjectMultipart store bucket key contentType
           contentLength (datas.map .ok) (some P) sender).2.1 = [] ∧
       abortCallIds (uploadObjectMultipart store bucket key contentType
           contentLength (datas.map .ok) (some P) sender).2.1 = []) := by
  refine ⟨fun store bucket key ct cl sender uid P good msg rest hcreate hpart hP => ?_,
    fun store bucket key ct cl datas psz sender =>
      uploadObjectMultipart_no_abort store bucket key ct cl datas psz sender,
    fun store bucket key ct cl sender uid m P datas hcreate hfail hP hjoin =>
      uploadObjectMultipart_part1_fail store bucket key ct cl sender
        hcreate hfail hP datas hjoin⟩
  rw [uploadObjectMultipart_chunkErr store bucket key ct cl sender hcreate hpart
      hP good msg rest]
  exact ⟨rfl,
    abortCallIds_chunkErr_calls bucket key ct uid _ _,
    completeCallArgs_chunkErr_calls bucket key ct uid _ _⟩

/-- C1 witness: the amended C1 theorem at concrete inputs — a chunk error
after one good chunk, and a first-part store failure. -/
theorem C1_failure_handling_witness :
    ((uploadObjectMultipart okStore "b" "k" "ct" none
        ([[7]].map .ok ++ .error "io" :: []) (some 3) (some ())).1 =
        .error (.InternalError ("Chunk error: " ++ "io")) ∧
     abortCallIds (uploadObjectMultipart okStore "b" "k" "ct" none
        ([[7]].map .ok ++ .error "io" :: []) (some 3) (some ())).2.1 = ["uid-1"] ∧
     completeCallArgs (uploadObjectMultipart okStore "b" "k" "ct" none
        ([[7]].map .ok ++ .error "io" :: []) (some 3) (some ())).2.1 = []) ∧
    ((uploadObjectMultipart partFailStore "b" "k" "ct" none
        ([[42]].map .ok) (some 1) (some ())).1 = .error (.InternalError "part failed") ∧
     completeCallArgs (uploadObjectMultipart partFailStore "b" "k" "ct" none
        ([[42]].map .ok) (some 1) (some ())).2.1 = [] ∧
     abortCallIds (uploadObjectMultipart partFailStore "b" "k" "ct" none
        ([[42]].map .ok) (some 1) (some ())).2.1 = []) :=
  ⟨C1_failure_handling.1 okStore "b" "k" "ct" none (some ()) "uid-1" 3 [[7]] "io" []
      rfl (fun pn => ⟨some ("etag-" ++ toString pn), rfl⟩) (by norm_num),
   C1_failure_handling.2.2 partFailStore "b" "k" "ct" none (some ()) "uid-1"
      "part failed" 1 [[42]] rfl rfl (by norm_num) (by decide)⟩




/-- The 2500-key scenario: keys `"0" … "2499"`. -/
def keys2500 : List String := (List.range 2500).map toString

lemma keys2500_length : keys2500.length = 2500 := by
  simp [keys2500]

/-- C4: recursive delete against a well-behaved store holding `M` matching
keys halts (fuel `M / 1000 + 1` suffices), batch-deletes exactly the keys
of each listed page (pages of at most 1000 keys), performs
`⌈M/1000⌉`-or-more listing calls (exactly `max 1 ⌈M/1000⌉`), and returns a
`DeleteOutcome` whose `deleted` list is exactly the `M` keys with no
errors; in the 2500-key scenario this is 3 listing calls, 3 batch-delete
calls, and 2500 deleted keys. -/
theorem C4_recursive_delete (bucket pfxS : String) :
    (∀ keys : List String, ∃ tr : List ListDelCall,
      deleteObjectsRecursive (canonicalListStore keys) bucket pfxS
          (keys.length / 1000 + 1) =
        some (tr, .ok { deleted := keys, errors := [] }) ∧
      deleteCallKeys tr = splitIntoParts 1000 keys ∧
      (∀ b ∈ deleteCallKeys tr, b.length ≤ 1000) ∧
      listCallCount tr = max 1 ((keys.length + 999) / 1000) ∧
      (keys.length + 999) / 1000 ≤ listCallCount tr) ∧
    (∃ tr : List ListDelCall,
      deleteObjectsRecursive (canonicalListStore keys2500) bucket pfxS 3 =
        some (tr, .ok { deleted := keys2500, errors := [] }) ∧
      listCallCount tr = 3 ∧ (deleteCallKeys tr).length = 3 ∧
      keys2500.length = 2500) := by
  have main : ∀ keys : List String, ∃ tr : List ListDelCall,
      deleteObjectsRecursive (canonicalListStore keys) bucket pfxS
          (keys.length / 1000 + 1) =
        some (tr, .ok { deleted := keys, errors := [] }) ∧
      deleteCallKeys tr = splitIntoParts 1000 keys ∧
      (∀ b ∈ deleteCallKeys tr, b.length ≤ 1000) ∧
      listCallCount tr = max 1 ((keys.length + 999) / 1000) ∧
      (keys.length + 999) / 1000 ≤ listCallCount tr := by
    intro keys
    obtain ⟨added, hrun, hcount, hkeys⟩ :=
      deleteRecLoop_canonical keys bucket pfxS (keys.length / 1000 + 1) 0 [] [] []
        (by
          simp only [Nat.mul_zero, List.drop_zero]
          omega)
    simp only [Nat.mul_zero, List.drop_zero, if_pos rfl, List.nil_append] at hrun hcount hkeys
    refine ⟨added, ?_, hkeys, ?_, ?_, ?_⟩
    · rw [deleteObjectsRecursive]
      exact hrun
    · rw [hkeys]
      exact splitIntoParts_sizes (by norm_num) keys
    · rw [hcount, splitIntoParts_length (by norm_num : (0:Nat) < 1000)]
      omega
    · rw [hcount, splitIntoParts_length (by norm_num : (0:Nat) < 1000)]
      omega
  refine ⟨main, ?_⟩
  obtain ⟨tr, hrun, hkeys, hsz, hcount, hge⟩ := main keys2500
  rw [keys2500_length] at hrun hcount
  norm_num at hrun hcount
  refine ⟨tr, hrun, hcount, ?_, keys2500_length⟩
  rw [hkeys, splitIntoParts_length (by norm_num : (0:Nat) < 1000), keys2500_length]

/-- C4 witness: the C4 theorem's scenario conjunct at concrete bucket and
prefix: 3 listing calls, 3 batch deletes, 2500 deleted keys. -/
theorem C4_recursive_delete_witness :
    ∃ tr : List ListDelCall,
      deleteObjectsRecursive (canonicalListStore keys2500) "bkt" "folder/" 3 =
        some (tr, .ok { deleted := keys2500, errors := [] }) ∧
      listCallCount tr = 3 ∧ (deleteCallKeys tr).length = 3 ∧
      keys2500.length = 2500 :=
  (C4_recursive_delete "bkt" "folder/").2




-- ===== C6 numeric lemmas (safe tactics) =====

lemma drainFull_nil (P : Nat) : drainFull P ([] : List Nat) = ([], []) :=
  drainFull_stop (by rw [List.length_nil]; omega)

lemma drainFull_2Mi :
    drainFull 5242880 (List.replicate 2097152 (0 : Nat)) =
      ([], List.replicate 2097152 (0 : Nat)) :=
  drainFull_stop (by rw [List.length_replicate]; omega)

lemma drainFull_5Mi :
    drainFull 5242880 (List.replicate 5242880 (0 : Nat)) =
      ([List.replicate 5242880 (0 : Nat)], []) := by
  rw [drainFull_step ⟨by omega, by rw [List.length_replicate]⟩,
      List.take_replicate, List.drop_replicate, Nat.min_self, Nat.sub_self,
      List.replicate_zero, drainFull_nil]

lemma drainFull_7Mi :
    drainFull 5242880 (List.replicate 7340032 (0 : Nat)) =
      ([List.replicate 5242880 (0 : Nat)], List.replicate 2097152 (0 : Nat)) := by
  rw [drainFull_step ⟨by omega, by rw [List.length_replicate]; omega⟩,
      List.take_replicate, List.drop_replicate,
      show min 5242880 7340032 = 5242880 from by omega,
      show 7340032 - 5242880 = 2097152 from by omega, drainFull_2Mi]

lemma drainFull_12Mi :
    drainFull 5242880 (List.replicate 12582912 (0 : Nat)) =
      ([List.replicate 5242880 (0 : Nat), List.replicate 5242880 (0 : Nat)],
       List.replicate 2097152 (0 : Nat)) := by
  rw [drainFull_step ⟨by omega, by rw [List.length_replicate]; omega⟩,
      List.take_replicate, List.drop_replicate,
      show min 5242880 12582912 = 5242880 from by omega,
      show 12582912 - 5242880 = 7340032 from by omega, drainFull_7Mi]

lemma assembleFrom_12Mi_single :
    assembleFrom 5242880 [] [List.replicate 12582912 (0 : Nat)] =
      ([List.replicate 5242880 (0 : Nat), List.replicate 5242880 (0 : Nat)],
       List.replicate 2097152 (0 : Nat)) := by
  simp only [assembleFrom, List.nil_append, drainFull_12Mi, List.append_nil]

lemma chunkEvents_12Mi_single :
    chunkEvents 5242880 12582912 1 0 [] [List.replicate 12582912 (0 : Nat)] =
      [.PartUploaded 1 12582912 12582912, .PartUploaded 2 12582912 12582912] := by
  simp only [chunkEvents, List.nil_append, drainFull_12Mi, List.length_replicate,
    List.length_cons, List.length_nil, List.append_nil]
  norm_num
  rfl

lemma replicate_2Mi_isEmpty :
    (List.replicate 2097152 (0 : Nat)).isEmpty = false := by
  rw [show (2097152 : Nat) = 2097151 + 1 from rfl, List.replicate_succ,
      List.isEmpty_cons]

lemma runEvents_12Mi_single :
    runEvents 5242880 12582912 [List.replicate 12582912 (0 : Nat)] =
      [.PartUploaded 1 12582912 12582912, .PartUploaded 2 12582912 12582912,
       .PartUploaded 3 12582912 12582912] := by
  rw [runEvents, chunkEvents_12Mi_single, assembleFrom_12Mi_single]
  rw [show (([List.replicate 5242880 (0 : Nat), List.replicate 5242880 (0 : Nat)],
        List.replicate 2097152 (0 : Nat)) :
        List (List Nat) × List Nat).2 = List.replicate 2097152 (0 : Nat) from rfl,
      replicate_2Mi_isEmpty, if_neg (by decide),
      show (([List.replicate 5242880 (0 : Nat), List.replicate 5242880 (0 : Nat)],
        List.replicate 2097152 (0 : Nat)) :
        List (List Nat) × List Nat).1 = [List.replicate 5242880 (0 : Nat),
          List.replicate 5242880 (0 : Nat)] from rfl,
      show ([List.replicate 5242880 (0 : Nat), List.replicate 5242880 (0 : Nat)] :
        List (List Nat)).length = 2 from rfl,
      show (([List.replicate 12582912 (0 : Nat)] :
        List (List Nat)).flatten.length) = 12582912 from by
        rw [List.flatten_cons, List.flatten_nil, List.append_nil,
            List.length_replicate]]
  norm_num

lemma assembleFrom_aligned :
    assembleFrom 5242880 []
      [List.replicate 5242880 (0 : Nat), List.replicate 5242880 (0 : Nat),
       List.replicate 2097152 (0 : Nat)] =
      ([List.replicate 5242880 (0 : Nat), List.replicate 5242880 (0 : Nat)],
       List.replicate 2097152 (0 : Nat)) := by
  simp only [assembleFrom, List.nil_append, drainFull_5Mi, drainFull_2Mi,
    List.append_nil, List.cons_append, List.singleton_append]

lemma chunkEvents_aligned :
    chunkEvents 5242880 12582912 1 0 []
      [List.replicate 5242880 (0 : Nat), List.replicate 5242880 (0 : Nat),
       List.replicate 2097152 (0 : Nat)] =
      [.PartUploaded 1 5242880 12582912, .PartUploaded 2 10485760 12582912] := by
  simp only [chunkEvents, List.nil_append, drainFull_5Mi, drainFull_2Mi,
    List.length_replicate, List.length_cons, List.length_nil, List.append_nil]
  norm_num

lemma runEvents_aligned :
    runEvents 5242880 12582912
      [List.replicate 5242880 (0 : Nat), List.replicate 5242880 (0 : Nat),
       List.replicate 2097152 (0 : Nat)] =
      [.PartUploaded 1 5242880 12582912, .PartUploaded 2 10485760 12582912,
       .PartUploaded 3 12582912 12582912] := by
  rw [runEvents, chunkEvents_aligned, assembleFrom_aligned]
  rw [show (([List.replicate 5242880 (0 : Nat), List.replicate 5242880 (0 : Nat)],
        List.replicate 2097152 (0 : Nat)) :
        List (List Nat) × List Nat).2 = List.replicate 2097152 (0 : Nat) from rfl,
      replicate_2Mi_isEmpty, if_neg (by decide),
      show (([List.replicate 5242880 (0 : Nat), List.replicate 5242880 (0 : Nat)],
        List.replicate 2097152 (0 : Nat)) :
        List (List Nat) × List Nat).1 = [List.replicate 5242880 (0 : Nat),
          List.replicate 5242880 (0 : Nat)] from rfl,
      show ([List.replicate 5242880 (0 : Nat), List.replicate 5242880 (0 : Nat)] :
        List (List Nat)).length = 2 from rfl,
      show (([List.replicate 5242880 (0 : Nat), List.replicate 5242880 (0 : Nat),
        List.replicate 2097152 (0 : Nat)] :
        List (List Nat)).flatten.length) = 12582912 from by
        rw [List.flatten_cons, List.flatten_cons, List.flatten_cons,
            List.flatten_nil, List.append_nil, List.length_append,
            List.length_append, List.length_replicate, List.length_replicate]]
  norm_num

lemma splitIntoParts_12MiB (l : List Nat) (hl : l.length = 12582912) :
    (splitIntoParts 5242880 l).map List.length = [5242880, 5242880, 2097152] := by
  have h1 : l ≠ [] := by
    intro hc
    rw [hc] at hl
    simp at hl
  rw [splitIntoParts_cons (by push_neg; exact ⟨h1, by norm_num⟩)]
  have hlen1 : (l.drop 5242880).length = 7340032 := by
    rw [List.length_drop, hl]
  have h2 : l.drop 5242880 ≠ [] := by
    intro hc
    rw [hc] at hlen1
    simp at hlen1
  rw [splitIntoParts_cons (by push_neg; exact ⟨h2, by norm_num⟩)]
  have hlen2 : ((l.drop 5242880).drop 5242880).length = 2097152 := by
    rw [List.length_drop, hlen1]
  have h3 : (l.drop 5242880).drop 5242880 ≠ [] := by
    intro hc
    rw [hc] at hlen2
    simp at hlen2
  rw [splitIntoParts_cons (by push_neg; exact ⟨h3, by norm_num⟩)]
  have hlen3 : (((l.drop 5242880).drop 5242880).drop 5242880).length = 0 := by
    rw [List.length_drop, hlen2]
  rw [List.eq_nil_of_length_eq_zero hlen3, splitIntoParts_base (Or.inl rfl)]
  simp [List.length_take, hl, hlen1, hlen2]

/-- C6 counterexample: the 12 MiB payload delivered as a single 12 MiB
chunk (a chunking the claim quantifies over) produces `PartUploaded`
events whose `bytes_uploaded` are 12582912, 12582912, 12582912 — the
running received-byte total — not 5242880, 10485760, 12582912 as
claimed. -/
theorem C6_counterexample :
    (uploadObjectMultipart okStore "b" "k" "ct" (some 12582912)
        ([List.replicate 12582912 (0 : Nat)].map .ok) (some 5242880) (some ())).2.2 =
      [.Initiated "uid-1" "b" "k",
       .PartUploaded 1 12582912 12582912,
       .PartUploaded 2 12582912 12582912,
       .PartUploaded 3 12582912 12582912] := by
  rw [uploadObjectMultipart_run okStore "b" "k" "ct" (some 12582912) (some ()) rfl
      (fun pn => ⟨some ("etag-" ++ toString pn), rfl⟩) rfl (by norm_num)
      [List.replicate 12582912 (0 : Nat)]]
  show sendAll (some ()) []
      (UploadProgress.Initiated "uid-1" "b" "k" ::
        runEvents 5242880 ((some (12582912 : Int)).getD 0)
          [List.replicate 12582912 (0 : Nat)]) = _
  rw [Option.getD_some, runEvents_12Mi_single]
  rfl

/-- C6 (amended): uploading a 12 MiB payload with `part_size = 5 MiB` and
declared length 12582912 produces, for EVERY chunking, exactly 3 parts of
sizes 5 MiB, 5 MiB, 2 MiB and a final `UploadResult` of size 12582912;
the three `PartUploaded` events carry the running RECEIVED-byte total
(`total_size` is advanced per received chunk before draining), which
equals 5242880, 10485760, 12582912 exactly when chunk boundaries align
with part boundaries — as in the aligned 5 MiB + 5 MiB + 2 MiB chunking,
for which the full event sequence is `Initiated`, then
`PartUploaded 1 5242880`, `PartUploaded 2 10485760`,
`PartUploaded 3 12582912`. -/
theorem C6_twelve_MiB_scenario :
    (∀ (store : StoreModel) (bucket key contentType : String)
       (contentLength : Option Int) (sender : Option Unit) (uid : String)
       (co : Option String) (datas : List (List Nat)),
       store.createResult = .ok (some uid) → PartsOk store →
       store.completeResult = .ok co → datas.flatten.length = 12582912 →
       (partBodies (uploadObjectMultipart store bucket key contentType
           contentLength (datas.map .ok) (some 5242880) sender).2.1).map List.length =
         [5242880, 5242880, 2097152] ∧
       (uploadObjectMultipart store bucket key contentType contentLength
           (datas.map .ok) (some 5242880) sender).1 =
         .ok { bucket := bucket, key := key
               etag := trimQuotes (co.getD ""), size := 12582912 }) ∧
    ((uploadObjectMultipart okStore "b" "k" "ct" (some 12582912)
        ([List.replicate 5242880 (0 : Nat), List.replicate 5242880 (0 : Nat),
          List.replicate 2097152 (0 : Nat)].map .ok) (some 5242880) (some ())).2.2 =
      [.Initiated "uid-1" "b" "k",
       .PartUploaded 1 5242880 12582912,
       .PartUploaded 2 10485760 12582912,
       .PartUploaded 3 12582912 12582912] ∧
     (uploadObjectMultipart okStore "b" "k" "ct" (some 12582912)
        ([List.replicate 5242880 (0 : Nat), List.replicate 5242880 (0 : Nat),
          List.replicate 2097152 (0 : Nat)].map .ok) (some 5242880) (some ())).1 =
      .ok { bucket := "b", key := "k", etag := "final-etag", size := 12582912 }) := by
  constructor
  · intro store bucket key ct cl sender uid co datas hcreate hpart hcomplete hl
    constructor
    · rw [partBodies_of_run store bucket key ct cl sender hcreate hpart hcomplete
          (by norm_num) datas]
      exact splitIntoParts_12MiB _ hl
    · rw [uploadObjectMultipart_run store bucket key ct cl sender hcreate hpart
          hcomplete (by norm_num) datas]
      show Except.ok (UploadResult.mk bucket key (trimQuotes (co.getD ""))
          (datas.flatten.length : Int)) = _
      rw [hl]
      norm_num
  · constructor
    · rw [uploadObjectMultipart_run okStore "b" "k" "ct" (some 12582912) (some ())
          rfl (fun pn => ⟨some ("etag-" ++ toString pn), rfl⟩) rfl (by norm_num)
          [List.replicate 5242880 (0 : Nat), List.replicate 5242880 (0 : Nat),
           List.replicate 2097152 (0 : Nat)]]
      show sendAll (some ()) []
          (UploadProgress.Initiated "uid-1" "b" "k" ::
            runEvents 5242880 ((some (12582912 : Int)).getD 0)
              [List.replicate 5242880 (0 : Nat), List.replicate 5242880 (0 : Nat),
               List.replicate 2097152 (0 : Nat)]) = _
      rw [Option.getD_some, runEvents_aligned]
      rfl
    · rw [uploadObjectMultipart_run okStore "b" "k" "ct" (some 12582912) (some ())
          rfl (fun pn => ⟨some ("etag-" ++ toString pn), rfl⟩) rfl (by norm_num)
          [List.replicate 5242880 (0 : Nat), List.replicate 5242880 (0 : Nat),
           List.replicate 2097152 (0 : Nat)]]
      show Except.ok (UploadResult.mk "b" "k"
          (trimQuotes ((some "final-etag").getD ""))
          (([List.replicate 5242880 (0 : Nat),
             List.replicate 5242880 (0 : Nat),
             List.replicate 2097152 (0 : Nat)] :
               List (List Nat)).flatten.length : Int)) = _
      rw [show (([List.replicate 5242880 (0 : Nat), List.replicate 5242880 (0 : Nat),
            List.replicate 2097152 (0 : Nat)] :
            List (List Nat)).flatten.length) = 12582912 from by
          rw [List.flatten_cons, List.flatten_cons, List.flatten_cons,
              List.flatten_nil, List.append_nil, List.length_append,
              List.length_append, List.length_replicate, List.length_replicate]]
      rfl

/-- C6 witness: the general conjunct of the amended C6 theorem at the
single-chunk 12 MiB input. -/
theorem C6_twelve_MiB_scenario_witness :
    (partBodies (uploadObjectMultipart okStore "b" "k" "ct" (some 12582912)
        ([List.replicate 12582912 (0 : Nat)].map .ok)
        (some 5242880) (some ())).2.1).map List.length =
      [5242880, 5242880, 2097152] ∧
    (uploadObjectMultipart okStore "b" "k" "ct" (some 12582912)
        ([List.replicate 12582912 (0 : Nat)].map .ok) (some 5242880) (some ())).1 =
      .ok { bucket := "b", key := "k"
            etag := trimQuotes ((some "final-etag").getD ""), size := 12582912 } :=
  C6_twelve_MiB_scenario.1 okStore "b" "k" "ct" (some 12582912) (some ()) "uid-1"
    (some "final-etag") [List.replicate 12582912 (0 : Nat)] rfl
    (fun pn => ⟨some ("etag-" ++ toString pn), rfl⟩) rfl
    (by rw [List.flatten_cons, List.flatten_nil, List.append_nil,
            List.length_replicate])

end GarageUI
